import Mathlib

/-!
Port selectors of the flow designer (`src/selectors/portSelectors.js`)

A shallow embedding of the selector module and the properties of its derived views.

* An Immutable.js keyed collection is an association list of `(key, value)` entries
  (`IMap`); `filter` keeps the entries whose value satisfies the predicate, with their
  keys, and `find` returns the first value satisfying the predicate.
* `state.get(name)` on a state that lacks the collection yields `undefined`, here `none`;
  calling a method on `undefined` raises a `TypeError`, here `Except.error`.
* A selector built by `createSelector` evaluates its input selectors from left to right
  and applies the result function to their values.
* The caches of `createSelector` and `memoize` are modelled apart from the uncached
  selectors: collections are references into a heap of immutable collections, and a call
  returns its answer, the new cache and, where it matters, the number of filter runs.
* `outPort` and `inPort` read the collections `out` and `in` of the state.
-/

namespace FlowDesigner

/-- Exception raised by the JavaScript runtime when a property of `undefined` is read. -/
inductive JSError where
  | typeError
deriving DecidableEq, Repr

/-- Immutable.js keyed collection: the entries `(key, value)` in iteration order. -/
abbrev IMap (α : Type) := List (String × α)

/-- Modelled from the spec: the node record is not declared in the sources; the
selectors read its identity `id`. -/
structure Node where
  id : String
deriving DecidableEq, Repr

/-- Modelled from the spec: the port record is not declared in the sources; it has the
attributes of the data model, read through the `Port` accessors and as `accessKey`, which
is optional. -/
structure Port where
  id : String
  nodeId : String
  topology : String
  accessKey : Option String := none
deriving DecidableEq, Repr

/-- Modelled from the spec: the link record is not declared in the sources; the
selectors read its `sourceId` and `targetId`. -/
structure Link where
  sourceId : String
  targetId : String
deriving DecidableEq, Repr

/-- Modelled from the spec: the constant `PORT_SOURCE` of
`constants/flowdesigner.constants` is not part of the sources; it is the topology value
SOURCE of the data model. -/
def PORT_SOURCE : String := "SOURCE"

/-- Modelled from the spec: the constant `PORT_SINK` of
`constants/flowdesigner.constants` is not part of the sources; it is the topology value
SINK of the data model. -/
def PORT_SINK : String := "SINK"

/-- Modelled from the spec: the accessor `Port.getId` of `../api` is not part of the
sources; it reads the identity `id` of a port. -/
def Port.getId (port : Port) : String := port.id

/-- Modelled from the spec: the accessor `Port.getNodeId` of `../api` is not part of the
sources; it reads the owning node reference `nodeId` of a port. -/
def Port.getNodeId (port : Port) : String := port.nodeId

/-- Modelled from the spec: the accessor `Port.getTopology` of `../api` is not part of
the sources; it reads the `topology` attribute of a port. -/
def Port.getTopology (port : Port) : String := port.topology

/-- State snapshot: a map that may hold the collections `nodes`, `ports` and `links`,
and the collections `out` and `in`, which give for a node id the outgoing and the ingoing
ports of the node. -/
structure State where
  nodes : Option (IMap Node) := none
  ports : Option (IMap Port) := none
  links : Option (IMap Link) := none
  out : Option (IMap (IMap Port)) := none
  «in» : Option (IMap (IMap Port)) := none
deriving DecidableEq, Repr

/-- The call `collection.filter(pred)`: the entries whose value satisfies `pred`. -/
def IMap.filter {α : Type} (pred : α → Bool) (m : IMap α) : IMap α :=
  List.filter (fun entry => pred entry.2) m

/-- The call `collection.filter(pred)` for a predicate that may throw: entries are
visited in order and the first exception aborts the call. -/
def IMap.filterE {α : Type} (pred : α → Except JSError Bool) :
    IMap α → Except JSError (IMap α)
  | [] => .ok []
  | entry :: rest =>
    match pred entry.2 with
    | .error e => .error e
    | .ok keep =>
      match IMap.filterE pred rest with
      | .error e => .error e
      | .ok kept => .ok (if keep then entry :: kept else kept)

/-- The call `collection.find(pred)`: the first value satisfying `pred`, or `undefined`. -/
def IMap.find {α : Type} (pred : α → Bool) (m : IMap α) : Option α :=
  (List.find? (fun entry => pred entry.2) m).map Prod.snd

/-- Method call `receiver.filter(pred)` where the receiver may be `undefined`. -/
def callFilter {α : Type} (receiver : Option (IMap α)) (pred : α → Bool) :
    Except JSError (IMap α) :=
  match receiver with
  | none => .error .typeError
  | some m => .ok (IMap.filter pred m)

/-- Method call `receiver.find(pred)` where the receiver may be `undefined`. -/
def callFind {α : Type} (receiver : Option (IMap α)) (pred : α → Bool) :
    Except JSError (Option α) :=
  match receiver with
  | none => .error .typeError
  | some m => .ok (IMap.find pred m)

/-- JavaScript `!value` for the result of `find`: a found record is an object, hence
truthy; `undefined` is falsy. -/
def notFound {α : Type} (found : Option α) : Bool := found.isNone

/-- JavaScript truthiness of an optional string: absent and `""` are falsy. -/
def truthyKey : Option String → Bool
  | none => false
  | some key => key != ""

/-- The call `state.getIn([name, nodeId])` on the collection stored under `name`:
`undefined` when the collection is missing or holds nothing for the node id. -/
def getIn (collection : Option (IMap (IMap Port))) (nodeId : String) : Option (IMap Port) :=
  match collection with
  | none => none
  | some entries => List.lookup nodeId entries

/-- JavaScript `value || fallback` for a value that is a collection or `undefined`: a
collection is an object, hence truthy, and `undefined` is falsy. -/
def orElse (value fallback : Option (IMap Port)) : Option (IMap Port) :=
  match value with
  | some stored => some stored
  | none => fallback

/-- The function `outPort`; `new Map()` is the empty collection. -/
def outPort (state : State) (nodeId : String) : Option (IMap Port) :=
  orElse (getIn state.out nodeId) (some [])

/-- The function `inPort`; `new Map()` is the empty collection. -/
def inPort (state : State) (nodeId : String) : Option (IMap Port) :=
  orElse (getIn state.«in» nodeId) (some [])

def getNodes (state : State) : Option (IMap Node) := state.nodes

def getPorts (state : State) : Option (IMap Port) := state.ports

def getLinks (state : State) : Option (IMap Link) := state.links

/-- The selector `getPortsForNode`: the derived function of a node id. The derivation
itself never throws; the body of the derived function reads `ports.filter`. -/
def getPortsForNode (state : State) : String → Except JSError (IMap Port) :=
  let ports := getPorts state
  fun nodeId => callFilter ports (fun port => Port.getNodeId port == nodeId)

def getEmitterPorts (state : State) : Except JSError (IMap Port) :=
  callFilter (getPorts state) (fun port => Port.getTopology port == PORT_SOURCE)

def getSinkPorts (state : State) : Except JSError (IMap Port) :=
  callFilter (getPorts state) (fun port => Port.getTopology port == PORT_SINK)

/-- The selector `getEmitterPortsForNode`: evaluating the input selector may throw; the
derived function of a node id filters the emitter ports. -/
def getEmitterPortsForNode (state : State) : Except JSError (String → IMap Port) :=
  match getEmitterPorts state with
  | .error e => .error e
  | .ok ports => .ok (fun nodeId => IMap.filter (fun port => Port.getNodeId port == nodeId) ports)

def getSinkPortsForNode (state : State) : Except JSError (String → IMap Port) :=
  match getSinkPorts state with
  | .error e => .error e
  | .ok ports => .ok (fun nodeId => IMap.filter (fun port => Port.getNodeId port == nodeId) ports)

def getFreeSinkPorts (state : State) : Except JSError (IMap Port) :=
  match getSinkPorts state with
  | .error e => .error e
  | .ok sinkPorts =>
    let links := getLinks state
    IMap.filterE (fun sinkPort =>
      match callFind links (fun link => link.targetId == Port.getId sinkPort) with
      | .error e => .error e
      | .ok found => .ok (notFound found)) sinkPorts

def getFreeEmitterPorts (state : State) : Except JSError (IMap Port) :=
  match getEmitterPorts state with
  | .error e => .error e
  | .ok emitterPorts =>
    let links := getLinks state
    IMap.filterE (fun emitterPort =>
      match callFind links (fun link => link.sourceId == Port.getId emitterPort) with
      | .error e => .error e
      | .ok found => .ok (notFound found)) emitterPorts

def getActionKeyedPorts (state : State) : Except JSError (IMap Port) :=
  match getFreeSinkPorts state with
  | .error e => .error e
  | .ok freeSinkPorts => .ok (IMap.filter (fun sinkPort => truthyKey sinkPort.accessKey) freeSinkPorts)

def getDetachedPorts (state : State) : Except JSError (IMap Port) :=
  match getPorts state with
  | none =>
    -- `ports.filter` is read before any node is looked at
    .error .typeError
  | some ports =>
    let nodes := getNodes state
    IMap.filterE (fun port =>
      match callFind nodes (fun node => node.id == Port.getNodeId port) with
      | .error e => .error e
      | .ok found => .ok (notFound found)) ports

/-! ## The memoized selector `getPortsForNode` -/

/-- Identity of an object of the JavaScript heap, which is what `===` compares. -/
abbrev Ref := Nat

/-- The immutable collections of the heap: a reference denotes the same entries for as
long as it lives, since a mutation builds a new collection with a new identity. -/
abbrev Heap := Ref → IMap Port

/-- A snapshot as a memoized selector receives it: the `ports` entry is a reference to a
collection of the heap. -/
structure Snapshot where
  nodes : IMap Node := []
  portsRef : Ref
  links : IMap Link := []
deriving DecidableEq, Repr

/-- The state a snapshot denotes, with the `ports` reference resolved in the heap. -/
def Snapshot.state (heap : Heap) (snapshot : Snapshot) : State :=
  { nodes := some snapshot.nodes, ports := some (heap snapshot.portsRef),
    links := some snapshot.links }

/-- Modelled from the spec: `createSelector` (reselect) and `memoize` (lodash) are
library functions that are not part of the sources. Section 9 describes their effect on
`getPortsForNode` as a two-level cache: the outer level remembers the identity of the
`ports` collection the derived function was built from, the inner level is the table of
the derived function, keyed by node id and holding the filtered result. -/
structure SelectorCache where
  lastPorts : Option Ref := none
  memo : List (String × IMap Port) := []
deriving DecidableEq, Repr

/-- Modelled from the spec: one call `getPortsForNode(state)(nodeId)` on the two-level
cache of section 9 (`createSelector` and `memoize` are not part of the sources). A
`ports` identity other than the remembered one builds a new derived function with an
empty table; the table is then looked up by node id, and a missing entry is computed by
the filter of the source and stored. -/
def memoizedPortsForNode (heap : Heap) (cache : SelectorCache) (portsRef : Ref)
    (nodeId : String) : IMap Port × SelectorCache :=
  let memo := if cache.lastPorts = some portsRef then cache.memo else []
  match List.lookup nodeId memo with
  | some cached => (cached, { lastPorts := some portsRef, memo := memo })
  | none =>
    let result := IMap.filter (fun port => Port.getNodeId port == nodeId) (heap portsRef)
    (result, { lastPorts := some portsRef, memo := (nodeId, result) :: memo })

/-- A sequence of queries `(snapshot, nodeId)` answered one after the other by the
memoized selector, starting from `cache`: the answers in order and the final cache. -/
def runQueries (heap : Heap) :
    SelectorCache → List (Snapshot × String) → List (IMap Port) × SelectorCache
  | cache, [] => ([], cache)
  | cache, query :: rest =>
    let step := memoizedPortsForNode heap cache query.1.portsRef query.2
    let tail := runQueries heap step.2 rest
    (step.1 :: tail.1, tail.2)

/-- The cache before the first call: no derived function has been built yet. -/
def SelectorCache.initial : SelectorCache := { lastPorts := none, memo := [] }

/-- The uncached result of the source for a collection of ports and a node id. -/
def portsOfNode (ports : IMap Port) (nodeId : String) : IMap Port :=
  IMap.filter (fun port => Port.getNodeId port == nodeId) ports

/-- Every entry of the inner table is the filtered result of the collection the derived
function was built from. -/
def SelectorCache.Valid (heap : Heap) (cache : SelectorCache) : Prop :=
  ∀ ref, cache.lastPorts = some ref →
    ∀ entry ∈ cache.memo, entry.2 = portsOfNode (heap ref) entry.1

/-- A heap with two collections: reference `1` is the collection of reference `0` with
the port `P2` added. -/
def sampleHeap : Heap := fun ref =>
  if ref = 0 then [("P1", { id := "P1", nodeId := "N1", topology := PORT_SOURCE })]
  else if ref = 1 then
    [("P1", { id := "P1", nodeId := "N1", topology := PORT_SOURCE }),
     ("P2", { id := "P2", nodeId := "N1", topology := PORT_SINK })]
  else []

/-! ## The derived functions of the node-keyed selectors -/

/-- Modelled from the spec: one call of a function built by `memoize(func)` (lodash, not
part of the sources), the per-node-id cache of section 4.2. The table is looked up by the
argument; only a missing entry calls `func` and stores its result. The last component is
the number of calls of `func`. -/
def memoizeCall {β : Type} (func : String → β) (table : List (String × β)) (key : String) :
    β × List (String × β) × Nat :=
  match List.lookup key table with
  | some cached => (cached, table, 0)
  | none => (func key, (key, func key) :: table, 1)

/-- One call of a function that is not wrapped in `memoize`: `func` runs on every call
and nothing is stored. The last component is the number of calls of `func`. -/
def plainCall {β : Type} (func : String → β) (key : String) : β × Nat :=
  (func key, 1)

/-- One call `getPortsForNode(state)(nodeId)` together with the number of times the body
`ports.filter(...)` of the derived function ran: the source wraps the derived function in
`memoize`. -/
def portsForNodeCall (heap : Heap) (cache : SelectorCache) (portsRef : Ref)
    (nodeId : String) : IMap Port × SelectorCache × Nat :=
  let memo := if cache.lastPorts = some portsRef then cache.memo else []
  let call := memoizeCall
    (fun nodeId => IMap.filter (fun port => Port.getNodeId port == nodeId) (heap portsRef))
    memo nodeId
  (call.1, { lastPorts := some portsRef, memo := call.2.1 }, call.2.2)

/-- Modelled from the spec: what `createSelector` (reselect, not part of the sources)
keeps for a selector whose derived function is not wrapped in `memoize`: the identity of
the collection the derived function was built from, and no table. -/
structure DerivedCache where
  lastPorts : Option Ref := none
deriving DecidableEq, Repr

/-- One call `getEmitterPortsForNode(state)(nodeId)` together with the number of times
the body `ports.filter(...)` of the derived function ran: the source returns the derived
function `nodeId => ports.filter(...)` as it is, over the emitter ports. -/
def emitterPortsForNodeCall (heap : Heap) (_cache : DerivedCache) (portsRef : Ref)
    (nodeId : String) : IMap Port × DerivedCache × Nat :=
  let ports := IMap.filter (fun port => Port.getTopology port == PORT_SOURCE) (heap portsRef)
  let call := plainCall
    (fun nodeId => IMap.filter (fun port => Port.getNodeId port == nodeId) ports) nodeId
  (call.1, { lastPorts := some portsRef }, call.2)

/-- One call `getSinkPortsForNode(state)(nodeId)` together with the number of times the
body `ports.filter(...)` of the derived function ran: the source returns the derived
function `nodeId => ports.filter(...)` as it is, over the sink ports. -/
def sinkPortsForNodeCall (heap : Heap) (_cache : DerivedCache) (portsRef : Ref)
    (nodeId : String) : IMap Port × DerivedCache × Nat :=
  let ports := IMap.filter (fun port => Port.getTopology port == PORT_SINK) (heap portsRef)
  let call := plainCall
    (fun nodeId => IMap.filter (fun port => Port.getNodeId port == nodeId) ports) nodeId
  (call.1, { lastPorts := some portsRef }, call.2)

/-- The node ids queried since the `ports` collection `ref` became the current one:
those of the final stretch of queries made against `ref`, latest first, with no query
against another identity in between. -/
def idsSinceCurrent (ref : Ref) (queries : List (Snapshot × String)) : List String :=
  (queries.reverse.takeWhile (fun query => query.1.portsRef == ref)).map Prod.snd

/-- A snapshot of the sample heap whose `ports` entry is the collection of reference `0`. -/
def earlierSnapshot : Snapshot :=
  { nodes := [("N1", { id := "N1" })], portsRef := 0 }

/-- A snapshot of the sample heap with the single node `N1`. -/
def oneNodeSnapshot : Snapshot :=
  { nodes := [("N1", { id := "N1" })], portsRef := 1 }

/-! ## Specification-side definitions and sample snapshots -/

/-- The set named in the free-port complement property: the sink ports referenced as
some link's target. -/
def referencedSinkPorts (sinkPorts : IMap Port) (links : IMap Link) : IMap Port :=
  List.filter
    (fun entry => List.any links (fun link => decide (link.2.targetId = Port.getId entry.2)))
    sinkPorts

/-- Scenario A: one node with a source port and a sink port, no link. -/
def scenarioA : State :=
  { nodes := some [("N1", { id := "N1" })],
    ports := some [("P1", { id := "P1", nodeId := "N1", topology := PORT_SOURCE }),
                   ("P2", { id := "P2", nodeId := "N1", topology := PORT_SINK })],
    links := some [] }

/-- Scenario B: scenario A with the link from `P1` to `P2`. -/
def scenarioB : State :=
  { scenarioA with links := some [("L1", { sourceId := "P1", targetId := "P2" })] }

/-- Scenario C: a keyed sink port whose node `N99` is missing. -/
def scenarioC : State :=
  { nodes := some [],
    ports := some [("P3", { id := "P3", nodeId := "N99", topology := PORT_SINK,
                            accessKey := some "k1" })],
    links := some [] }

/-- A snapshot whose only link names the source port `P1` as its target. -/
def backLinkState : State :=
  { scenarioA with links := some [("L1", { sourceId := "P2", targetId := "P1" })] }

/-- A snapshot with a free sink port for each kind of `accessKey`: a key, the empty
string, and none. -/
def keyedState : State :=
  { nodes := some [("N1", { id := "N1" })],
    ports := some [("P1", { id := "P1", nodeId := "N1", topology := PORT_SINK,
                            accessKey := some "k1" }),
                   ("P2", { id := "P2", nodeId := "N1", topology := PORT_SINK,
                            accessKey := some "" }),
                   ("P3", { id := "P3", nodeId := "N1", topology := PORT_SINK })],
    links := some [] }

/-- A snapshot whose only port has a topology that is neither SOURCE nor SINK. -/
def otherTopologyState : State :=
  { nodes := some [("N1", { id := "N1" })],
    ports := some [("P9", { id := "P9", nodeId := "N1", topology := "BOTH",
                            accessKey := some "k9" })],
    links := some [] }

/-- A state whose `out` collection holds the port `P1` for the node `N1` and which has
no `in` collection. -/
def wiredState : State :=
  { out := some [("N1", [("P1", { id := "P1", nodeId := "N1", topology := PORT_SOURCE })])] }

/-- The shape every query takes on a snapshot holding `ports`: it returns a container,
which is empty when `ports` is empty and when no port satisfies `selects`. -/
def ReturnsContainer (outcome : Except JSError (IMap Port)) (ports : IMap Port)
    (selects : Port → Prop) : Prop :=
  ∃ result, outcome = .ok result ∧ (ports = [] → result = []) ∧
    ((∀ entry ∈ ports, ¬ selects entry.2) → result = [])

/-! ## Shared lemmas on the collection operations -/

theorem IMap.mem_filter {α : Type} (pred : α → Bool) (m : IMap α) (entry : String × α) :
    entry ∈ IMap.filter pred m ↔ entry ∈ m ∧ pred entry.2 = true := by
  simp [IMap.filter, List.mem_filter]

theorem IMap.filterE_ok {α : Type} (pred : α → Except JSError Bool) (total : α → Bool)
    (m : IMap α) (h : ∀ value, pred value = .ok (total value)) :
    IMap.filterE pred m = .ok (IMap.filter total m) := by
  induction m with
  | nil => rfl
  | cons entry rest ih =>
    simp only [IMap.filterE, h, ih, IMap.filter, List.filter_cons]

theorem notFound_find {α : Type} (pred : α → Bool) (m : IMap α) :
    notFound (IMap.find pred m) = true ↔ ∀ entry ∈ m, pred entry.2 = false := by
  simp [notFound, IMap.find]

theorem notFound_find_false {α : Type} (pred : α → Bool) (m : IMap α) :
    notFound (IMap.find pred m) = false ↔ ∃ entry ∈ m, pred entry.2 = true := by
  rw [← Bool.not_eq_true, notFound_find]
  simp

theorem getSinkPorts_eq (state : State) (ports : IMap Port) (hp : getPorts state = some ports) :
    getSinkPorts state = .ok (IMap.filter (fun port => Port.getTopology port == PORT_SINK) ports) := by
  simp [getSinkPorts, hp, callFilter]

theorem getEmitterPorts_eq (state : State) (ports : IMap Port)
    (hp : getPorts state = some ports) :
    getEmitterPorts state =
      .ok (IMap.filter (fun port => Port.getTopology port == PORT_SOURCE) ports) := by
  simp [getEmitterPorts, hp, callFilter]

theorem getPortsForNode_eq (state : State) (ports : IMap Port)
    (hp : getPorts state = some ports) (nodeId : String) :
    getPortsForNode state nodeId =
      .ok (IMap.filter (fun port => Port.getNodeId port == nodeId) ports) := by
  simp [getPortsForNode, hp, callFilter]

theorem getFreeSinkPorts_eq (state : State) (ports : IMap Port) (links : IMap Link)
    (hp : getPorts state = some ports) (hl : getLinks state = some links) :
    getFreeSinkPorts state =
      .ok (IMap.filter
        (fun sinkPort =>
          notFound (IMap.find (fun link => link.targetId == Port.getId sinkPort) links))
        (IMap.filter (fun port => Port.getTopology port == PORT_SINK) ports)) := by
  simp only [getFreeSinkPorts, getSinkPorts_eq state ports hp, hl, callFind]
  exact IMap.filterE_ok _ _ _ (fun _ => rfl)

theorem getFreeEmitterPorts_eq (state : State) (ports : IMap Port) (links : IMap Link)
    (hp : getPorts state = some ports) (hl : getLinks state = some links) :
    getFreeEmitterPorts state =
      .ok (IMap.filter
        (fun emitterPort =>
          notFound (IMap.find (fun link => link.sourceId == Port.getId emitterPort) links))
        (IMap.filter (fun port => Port.getTopology port == PORT_SOURCE) ports)) := by
  simp only [getFreeEmitterPorts, getEmitterPorts_eq state ports hp, hl, callFind]
  exact IMap.filterE_ok _ _ _ (fun _ => rfl)

theorem getDetachedPorts_eq (state : State) (ports : IMap Port) (nodes : IMap Node)
    (hp : getPorts state = some ports) (hn : getNodes state = some nodes) :
    getDetachedPorts state =
      .ok (IMap.filter
        (fun port => notFound (IMap.find (fun node => node.id == Port.getNodeId port) nodes))
        ports) := by
  simp only [getDetachedPorts, hp, hn, callFind]
  exact IMap.filterE_ok _ _ _ (fun _ => rfl)

theorem getEmitterPortsForNode_eq (state : State) (ports : IMap Port)
    (hp : getPorts state = some ports) :
    getEmitterPortsForNode state =
      .ok (fun nodeId => IMap.filter (fun port => Port.getNodeId port == nodeId)
        (IMap.filter (fun port => Port.getTopology port == PORT_SOURCE) ports)) := by
  simp only [getEmitterPortsForNode, getEmitterPorts_eq state ports hp]

theorem getSinkPortsForNode_eq (state : State) (ports : IMap Port)
    (hp : getPorts state = some ports) :
    getSinkPortsForNode state =
      .ok (fun nodeId => IMap.filter (fun port => Port.getNodeId port == nodeId)
        (IMap.filter (fun port => Port.getTopology port == PORT_SINK) ports)) := by
  simp only [getSinkPortsForNode, getSinkPorts_eq state ports hp]

theorem getActionKeyedPorts_eq (state : State) (ports : IMap Port) (links : IMap Link)
    (hp : getPorts state = some ports) (hl : getLinks state = some links) :
    getActionKeyedPorts state =
      .ok (IMap.filter (fun sinkPort => truthyKey sinkPort.accessKey)
        (IMap.filter
          (fun sinkPort =>
            notFound (IMap.find (fun link => link.targetId == Port.getId sinkPort) links))
          (IMap.filter (fun port => Port.getTopology port == PORT_SINK) ports))) := by
  simp only [getActionKeyedPorts, getFreeSinkPorts_eq state ports links hp hl]

theorem IMap.filter_filter {α : Type} (first second : α → Bool) (m : IMap α) :
    IMap.filter second (IMap.filter first m) =
      IMap.filter (fun value => first value && second value) m := by
  simp only [IMap.filter, List.filter_filter]
  apply List.filter_congr
  intro entry _
  exact Bool.and_comm _ _

theorem returnsContainer_filter (pred : Port → Bool) (ports : IMap Port)
    (selects : Port → Prop) (h : ∀ entry ∈ ports, pred entry.2 = true → selects entry.2) :
    ReturnsContainer (.ok (IMap.filter pred ports)) ports selects := by
  refine ⟨_, rfl, ?_, ?_⟩
  · intro hempty
    rw [hempty]
    rfl
  · intro hnone
    simp only [IMap.filter, List.filter_eq_nil_iff]
    intro entry hentry hpred
    exact hnone entry hentry (h entry hentry hpred)

/-- Without a `ports` collection the selectors that read it throw. -/
theorem getEmitterPorts_absent (state : State) (hp : getPorts state = none) :
    getEmitterPorts state = .error .typeError := by
  simp [getEmitterPorts, hp, callFilter]

/-! ## Lemmas on the memoized selector -/

theorem mem_of_lookup {β : Type} (key : String) (value : β) (table : List (String × β))
    (h : List.lookup key table = some value) : (key, value) ∈ table := by
  induction table with
  | nil => simp at h
  | cons head rest ih =>
    obtain ⟨k, v⟩ := head
    by_cases hk : key = k
    · subst hk
      simp only [List.lookup_cons, beq_self_eq_true, Option.some.injEq] at h
      rw [h]
      exact List.mem_cons_self _ _
    · have hbeq : (key == k) = false := by simpa using hk
      simp only [List.lookup_cons, hbeq] at h
      exact List.mem_cons_of_mem _ (ih h)

theorem SelectorCache.initial_valid (heap : Heap) : SelectorCache.Valid heap .initial := by
  intro ref h
  simp [SelectorCache.initial] at h

/-- A call whose `ports` identity differs from the remembered one does not read the
inner table: the answer is computed by the filter and the new table holds it alone. -/
theorem memoizedPortsForNode_rebuilt (heap : Heap) (cache : SelectorCache) (portsRef : Ref)
    (nodeId : String) (h : cache.lastPorts ≠ some portsRef) :
    memoizedPortsForNode heap cache portsRef nodeId =
      (portsOfNode (heap portsRef) nodeId,
        { lastPorts := some portsRef, memo := [(nodeId, portsOfNode (heap portsRef) nodeId)] }) := by
  simp [memoizedPortsForNode, h, portsOfNode]

/-- One call on a valid cache answers with the uncached result and keeps the cache
valid. -/
theorem memoizedPortsForNode_step (heap : Heap) (cache : SelectorCache) (portsRef : Ref)
    (nodeId : String) (hvalid : SelectorCache.Valid heap cache) :
    (memoizedPortsForNode heap cache portsRef nodeId).1 = portsOfNode (heap portsRef) nodeId ∧
      SelectorCache.Valid heap (memoizedPortsForNode heap cache portsRef nodeId).2 ∧
      (memoizedPortsForNode heap cache portsRef nodeId).2.lastPorts = some portsRef := by
  by_cases hsame : cache.lastPorts = some portsRef
  · cases hlookup : List.lookup nodeId cache.memo with
    | none =>
      simp only [memoizedPortsForNode, hsame, if_true, hlookup]
      refine ⟨rfl, ?_, trivial⟩
      intro ref href entry hentry
      simp only [Option.some.injEq] at href
      subst href
      rcases List.mem_cons.mp hentry with h | h
      · rw [h]; rfl
      · exact hvalid _ hsame entry h
    | some cached =>
      simp only [memoizedPortsForNode, hsame, if_true, hlookup]
      refine ⟨hvalid _ hsame _ (mem_of_lookup _ _ _ hlookup), ?_, trivial⟩
      intro ref href entry hentry
      simp only [Option.some.injEq] at href
      subst href
      exact hvalid _ hsame entry hentry
  · rw [memoizedPortsForNode_rebuilt heap cache portsRef nodeId hsame]
    refine ⟨rfl, ?_, rfl⟩
    intro ref href entry hentry
    simp only [Option.some.injEq] at href
    subst href
    simp only [List.mem_singleton] at hentry
    rw [hentry]

/-- A run from a valid cache answers every query with the uncached result and ends in a
valid cache. -/
theorem runQueries_valid (heap : Heap) (queries : List (Snapshot × String))
    (cache : SelectorCache) (hvalid : SelectorCache.Valid heap cache) :
    (runQueries heap cache queries).1 =
        queries.map (fun query => portsOfNode (heap query.1.portsRef) query.2) ∧
      SelectorCache.Valid heap (runQueries heap cache queries).2 := by
  induction queries generalizing cache with
  | nil => exact ⟨rfl, hvalid⟩
  | cons query rest ih =>
    obtain ⟨hanswer, hnext, _⟩ :=
      memoizedPortsForNode_step heap cache query.1.portsRef query.2 hvalid
    obtain ⟨hrest, hfinal⟩ := ih _ hnext
    simp only [runQueries, List.map_cons]
    exact ⟨by rw [hanswer, hrest], hfinal⟩

/-! ## The claims -/

/-- C1. Free-port complement: in a snapshot holding `ports` and `links`, the free sink
ports together with the sink ports referenced as some link's target are exactly the sink
ports, no entry is in both sets, and a sink port is free iff no link has a `targetId`
equal to the port's id. -/
theorem freeSinkPorts_complement (state : State) (ports : IMap Port) (links : IMap Link)
    (hp : getPorts state = some ports) (hl : getLinks state = some links) :
    ∃ sink free, getSinkPorts state = .ok sink ∧ getFreeSinkPorts state = .ok free ∧
      (∀ entry, entry ∈ free ∨ entry ∈ referencedSinkPorts sink links ↔ entry ∈ sink) ∧
      (∀ entry, ¬ (entry ∈ free ∧ entry ∈ referencedSinkPorts sink links)) ∧
      (∀ entry, entry ∈ free ↔
        entry ∈ sink ∧ ¬ ∃ link ∈ links, link.2.targetId = Port.getId entry.2) ∧
      List.Perm (free ++ referencedSinkPorts sink links) sink := by
  refine ⟨_, _, getSinkPorts_eq state ports hp, getFreeSinkPorts_eq state ports links hp hl,
    ?_, ?_, ?_, ?_⟩
  · intro entry
    simp only [IMap.mem_filter, referencedSinkPorts, List.mem_filter, notFound_find,
      List.any_eq_true, decide_eq_true_eq, beq_eq_false_iff_ne, ne_eq]
    constructor
    · rintro (h | h) <;> exact h.1
    · intro h
      by_cases hx : ∃ link ∈ links, link.2.targetId = Port.getId entry.2
      · exact Or.inr ⟨h, hx⟩
      · exact Or.inl ⟨h, fun link hlink heq => hx ⟨link, hlink, heq⟩⟩
  · intro entry
    simp only [IMap.mem_filter, referencedSinkPorts, List.mem_filter, notFound_find,
      List.any_eq_true, decide_eq_true_eq, beq_eq_false_iff_ne, ne_eq]
    rintro ⟨⟨_, hfree⟩, _, link, hlink, heq⟩
    exact hfree link hlink heq
  · intro entry
    simp only [IMap.mem_filter, notFound_find, beq_eq_false_iff_ne, ne_eq]
    constructor
    · rintro ⟨hs, hfree⟩
      exact ⟨hs, fun ⟨link, hlink, heq⟩ => hfree link hlink heq⟩
    · rintro ⟨hs, hfree⟩
      exact ⟨hs, fun link hlink heq => hfree ⟨link, hlink, heq⟩⟩
  · unfold referencedSinkPorts
    have hfilter : ∀ sink : IMap Port,
        IMap.filter (fun sinkPort =>
          notFound (IMap.find (fun link => link.targetId == Port.getId sinkPort) links)) sink
        = List.filter (fun entry => !(List.any links
            (fun link => decide (link.2.targetId = Port.getId entry.2)))) sink := by
      intro sink
      unfold IMap.filter
      apply List.filter_congr
      intro entry _
      cases hany : List.any links (fun link => decide (link.2.targetId = Port.getId entry.2))
      · simp only [Bool.not_false, notFound_find]
        intro link hlink
        have := List.any_eq_false.mp hany link hlink
        simpa using this
      · simp only [Bool.not_true, notFound_find_false]
        obtain ⟨link, hlink, heq⟩ := List.any_eq_true.mp hany
        exact ⟨link, hlink, by simpa using heq⟩
    rw [hfilter]
    exact (List.perm_append_comm).trans (List.filter_append_perm _ _)

/-- Witness of C1 on scenario B, where the sink port `P2` is the target of the link. -/
theorem freeSinkPorts_complement_witness :
    ∃ sink free, getSinkPorts scenarioB = .ok sink ∧ getFreeSinkPorts scenarioB = .ok free ∧
      (∀ entry, entry ∈ free ∨
        entry ∈ referencedSinkPorts sink [("L1", { sourceId := "P1", targetId := "P2" })] ↔
        entry ∈ sink) ∧
      (∀ entry, ¬ (entry ∈ free ∧
        entry ∈ referencedSinkPorts sink [("L1", { sourceId := "P1", targetId := "P2" })])) ∧
      (∀ entry, entry ∈ free ↔
        entry ∈ sink ∧ ¬ ∃ link ∈ [("L1", ({ sourceId := "P1", targetId := "P2" } : Link))],
          link.2.targetId = Port.getId entry.2) ∧
      List.Perm (free ++ referencedSinkPorts sink [("L1", { sourceId := "P1", targetId := "P2" })])
        sink :=
  freeSinkPorts_complement scenarioB _ _ rfl rfl

/-- C2. Detached consistency: in a snapshot holding `ports` and `nodes`, whatever its
links, an entry is in `getDetachedPorts` iff it is an entry of `ports` and no node of
`nodes` has an id equal to the port's `nodeId`; the topology plays no part. -/
theorem detachedPorts_iff (state : State) (ports : IMap Port) (nodes : IMap Node)
    (hp : getPorts state = some ports) (hn : getNodes state = some nodes) :
    ∃ detached, getDetachedPorts state = .ok detached ∧
      ∀ entry, entry ∈ detached ↔
        entry ∈ ports ∧ ¬ ∃ node ∈ nodes, node.2.id = entry.2.nodeId := by
  refine ⟨_, getDetachedPorts_eq state ports nodes hp hn, ?_⟩
  intro entry
  simp only [IMap.mem_filter, notFound_find, beq_eq_false_iff_ne, ne_eq, Port.getNodeId]
  constructor
  · rintro ⟨hmem, hfree⟩
    exact ⟨hmem, fun ⟨node, hnode, heq⟩ => hfree node hnode heq⟩
  · rintro ⟨hmem, hfree⟩
    exact ⟨hmem, fun node hnode heq => hfree ⟨node, hnode, heq⟩⟩

/-- Witness of C2 on scenario C, whose only port references the missing node `N99`. -/
theorem detachedPorts_iff_witness :
    ∃ detached, getDetachedPorts scenarioC = .ok detached ∧
      ∀ entry, entry ∈ detached ↔
        entry ∈ [("P3", ({ id := "P3", nodeId := "N99", topology := PORT_SINK,
                           accessKey := some "k1" } : Port))] ∧
        ¬ ∃ node ∈ ([] : IMap Node), node.2.id = entry.2.nodeId :=
  detachedPorts_iff scenarioC _ _ rfl rfl

/-- C3, as stated, fails: in scenario C the node `N99` does not exist in `nodes`, yet
`getPortsForNode` returns the port `P3` for it, not an empty container. -/
theorem portsForNode_missing_node_counterexample :
    getNodes scenarioC = some [] ∧
      getPortsForNode scenarioC "N99" =
        .ok [("P3", { id := "P3", nodeId := "N99", topology := PORT_SINK,
                      accessKey := some "k1" })] ∧
      getPortsForNode scenarioC "N99" ≠ .ok [] := by
  refine ⟨rfl, rfl, ?_⟩
  intro h
  have h2 : getPortsForNode scenarioC "N99" =
      .ok [("P3", { id := "P3", nodeId := "N99", topology := PORT_SINK,
                    accessKey := some "k1" })] := rfl
  rw [h2] at h
  cases h

/-- C3, amended. In a snapshot holding `ports`, `getPortsForNode` returns a container
for every node id, never a failure, and the container is empty exactly when no port has
that `nodeId`; so it is empty for a node id that does not exist in `nodes` whenever no
port is detached, that is, whenever every port's `nodeId` is the id of a node. -/
theorem portsForNode_empty_iff (state : State) (ports : IMap Port) (nodeId : String)
    (hp : getPorts state = some ports) :
    ∃ result, getPortsForNode state nodeId = .ok result ∧
      (result = [] ↔ ∀ entry ∈ ports, entry.2.nodeId ≠ nodeId) ∧
      (∀ nodes, getNodes state = some nodes →
        (∀ entry ∈ ports, ∃ node ∈ nodes, node.2.id = entry.2.nodeId) →
        (¬ ∃ node ∈ nodes, node.2.id = nodeId) → result = []) := by
  have hiff : IMap.filter (fun port => Port.getNodeId port == nodeId) ports = [] ↔
      ∀ entry ∈ ports, entry.2.nodeId ≠ nodeId := by
    simp [IMap.filter, List.filter_eq_nil_iff, Port.getNodeId]
  refine ⟨_, getPortsForNode_eq state ports hp nodeId, hiff, ?_⟩
  intro nodes _ hattached hmissing
  rw [hiff]
  intro entry hentry heq
  obtain ⟨node, hnode, hid⟩ := hattached entry hentry
  exact hmissing ⟨node, hnode, hid.trans heq⟩

/-- Witness of amended C3 on scenario A and a node id that no node and no port has. -/
theorem portsForNode_empty_iff_witness :
    ∃ result, getPortsForNode scenarioA "nonexistent" = .ok result ∧
      (result = [] ↔
        ∀ entry ∈ [("P1", ({ id := "P1", nodeId := "N1", topology := PORT_SOURCE } : Port)),
                   ("P2", { id := "P2", nodeId := "N1", topology := PORT_SINK })],
          entry.2.nodeId ≠ "nonexistent") ∧
      (∀ nodes, getNodes scenarioA = some nodes →
        (∀ entry ∈ [("P1", ({ id := "P1", nodeId := "N1", topology := PORT_SOURCE } : Port)),
                    ("P2", { id := "P2", nodeId := "N1", topology := PORT_SINK })],
          ∃ node ∈ nodes, node.2.id = entry.2.nodeId) →
        (¬ ∃ node ∈ nodes, node.2.id = "nonexistent") → result = []) :=
  portsForNode_empty_iff scenarioA _ "nonexistent" rfl

/-- C4. In a snapshot holding `ports`, `getPortsForNode` applied to a node id returns
exactly the entries of `ports` whose `nodeId` equals the argument, in their order and
whatever their topology. -/
theorem portsForNode_exact (state : State) (ports : IMap Port) (nodeId : String)
    (hp : getPorts state = some ports) :
    ∃ result, getPortsForNode state nodeId = .ok result ∧
      (∀ entry, entry ∈ result ↔ entry ∈ ports ∧ entry.2.nodeId = nodeId) ∧
      result = List.filter (fun entry => decide (entry.2.nodeId = nodeId)) ports := by
  refine ⟨_, getPortsForNode_eq state ports hp nodeId, ?_, ?_⟩
  · intro entry
    simp [IMap.mem_filter, Port.getNodeId]
  · rfl

/-- Witness of C4 on scenario A and its node `N1`. -/
theorem portsForNode_exact_witness :
    ∃ result, getPortsForNode scenarioA "N1" = .ok result ∧
      (∀ entry, entry ∈ result ↔
        entry ∈ [("P1", ({ id := "P1", nodeId := "N1", topology := PORT_SOURCE } : Port)),
                 ("P2", { id := "P2", nodeId := "N1", topology := PORT_SINK })] ∧
        entry.2.nodeId = "N1") ∧
      result = List.filter (fun entry => decide (entry.2.nodeId = "N1"))
        [("P1", ({ id := "P1", nodeId := "N1", topology := PORT_SOURCE } : Port)),
         ("P2", { id := "P2", nodeId := "N1", topology := PORT_SINK })] :=
  portsForNode_exact scenarioA _ "N1" rfl

/-- C5. Partition property: in a snapshot holding `ports` where every port's topology
is `PORT_SOURCE` or `PORT_SINK`, every entry of `ports` is in exactly one of
`getEmitterPorts` and `getSinkPorts`; the two results are disjoint, together they hold
every port, and they are the ports of topology SOURCE and of topology SINK. -/
theorem emitter_sink_partition (state : State) (ports : IMap Port)
    (hp : getPorts state = some ports)
    (htopology : ∀ entry ∈ ports,
      entry.2.topology = PORT_SOURCE ∨ entry.2.topology = PORT_SINK) :
    ∃ emitters sinks, getEmitterPorts state = .ok emitters ∧ getSinkPorts state = .ok sinks ∧
      (∀ entry, entry ∈ emitters ↔ entry ∈ ports ∧ entry.2.topology = PORT_SOURCE) ∧
      (∀ entry, entry ∈ sinks ↔ entry ∈ ports ∧ entry.2.topology = PORT_SINK) ∧
      (∀ entry ∈ ports, (entry ∈ emitters ∧ entry ∉ sinks) ∨ (entry ∉ emitters ∧ entry ∈ sinks)) ∧
      (∀ entry, ¬ (entry ∈ emitters ∧ entry ∈ sinks)) ∧
      (∀ entry, entry ∈ emitters ∨ entry ∈ sinks ↔ entry ∈ ports) ∧
      List.Perm (emitters ++ sinks) ports := by
  have hne : PORT_SOURCE ≠ PORT_SINK := by decide
  refine ⟨_, _, getEmitterPorts_eq state ports hp, getSinkPorts_eq state ports hp,
    ?_, ?_, ?_, ?_, ?_, ?_⟩
  · intro entry
    simp [IMap.mem_filter, Port.getTopology]
  · intro entry
    simp [IMap.mem_filter, Port.getTopology]
  · intro entry hentry
    simp only [IMap.mem_filter, Port.getTopology, beq_iff_eq]
    rcases htopology entry hentry with h | h
    · exact Or.inl ⟨⟨hentry, h⟩, fun hs => hne (h.symm.trans hs.2)⟩
    · exact Or.inr ⟨fun he => hne (he.2.symm.trans h), ⟨hentry, h⟩⟩
  · intro entry
    simp only [IMap.mem_filter, Port.getTopology, beq_iff_eq]
    rintro ⟨⟨_, he⟩, _, hs⟩
    exact hne (he.symm.trans hs)
  · intro entry
    simp only [IMap.mem_filter, Port.getTopology, beq_iff_eq]
    constructor
    · rintro (h | h) <;> exact h.1
    · intro hentry
      rcases htopology entry hentry with h | h
      · exact Or.inl ⟨hentry, h⟩
      · exact Or.inr ⟨hentry, h⟩
  · have hsinks : IMap.filter (fun port => Port.getTopology port == PORT_SINK) ports =
        List.filter (fun entry => !(Port.getTopology entry.2 == PORT_SOURCE)) ports := by
      unfold IMap.filter
      apply List.filter_congr
      intro entry hentry
      simp only [Port.getTopology]
      rcases htopology entry hentry with h | h
      · rw [h]; decide
      · rw [h]; decide
    rw [hsinks]
    exact List.filter_append_perm _ _

/-- Witness of C5 on scenario A, which has one source port and one sink port. -/
theorem emitter_sink_partition_witness :
    (∀ entry ∈ [("P1", ({ id := "P1", nodeId := "N1", topology := PORT_SOURCE } : Port)),
                ("P2", { id := "P2", nodeId := "N1", topology := PORT_SINK })],
      entry.2.topology = PORT_SOURCE ∨ entry.2.topology = PORT_SINK) ∧
    ∃ emitters sinks, getEmitterPorts scenarioA = .ok emitters ∧
      getSinkPorts scenarioA = .ok sinks ∧
      List.Perm (emitters ++ sinks)
        [("P1", ({ id := "P1", nodeId := "N1", topology := PORT_SOURCE } : Port)),
         ("P2", { id := "P2", nodeId := "N1", topology := PORT_SINK })] := by
  have htopology : ∀ entry ∈
      [("P1", ({ id := "P1", nodeId := "N1", topology := PORT_SOURCE } : Port)),
       ("P2", { id := "P2", nodeId := "N1", topology := PORT_SINK })],
      entry.2.topology = PORT_SOURCE ∨ entry.2.topology = PORT_SINK := by
    intro entry hentry
    simp only [List.mem_cons, List.mem_singleton, List.not_mem_nil, or_false] at hentry
    rcases hentry with h | h
    · exact Or.inl (by rw [h])
    · exact Or.inr (by rw [h])
  obtain ⟨emitters, sinks, he, hs, _, _, _, _, _, hperm⟩ :=
    emitter_sink_partition scenarioA _ rfl htopology
  exact ⟨htopology, emitters, sinks, he, hs, hperm⟩

/-- C6. In a snapshot holding `ports` and `links`, `getFreeEmitterPorts` holds exactly
the entries of `ports` of topology SOURCE for which no link has a `sourceId` equal to
the port's id; the `targetId` of the links is not read. -/
theorem freeEmitterPorts_exact (state : State) (ports : IMap Port) (links : IMap Link)
    (hp : getPorts state = some ports) (hl : getLinks state = some links) :
    ∃ free, getFreeEmitterPorts state = .ok free ∧
      (∀ entry, entry ∈ free ↔
        entry ∈ ports ∧ entry.2.topology = PORT_SOURCE ∧
          ¬ ∃ link ∈ links, link.2.sourceId = entry.2.id) ∧
      (∀ entry ∈ ports, entry.2.topology = PORT_SOURCE →
        (∀ link ∈ links, link.2.sourceId ≠ entry.2.id) → entry ∈ free) := by
  have hiff : ∀ entry : String × Port,
      entry ∈ IMap.filter
        (fun emitterPort =>
          notFound (IMap.find (fun link => link.sourceId == Port.getId emitterPort) links))
        (IMap.filter (fun port => Port.getTopology port == PORT_SOURCE) ports) ↔
      entry ∈ ports ∧ entry.2.topology = PORT_SOURCE ∧
        ¬ ∃ link ∈ links, link.2.sourceId = entry.2.id := by
    intro entry
    simp only [IMap.mem_filter, notFound_find, beq_eq_false_iff_ne, ne_eq, beq_iff_eq,
      Port.getId, Port.getTopology]
    constructor
    · rintro ⟨⟨hmem, htop⟩, hfree⟩
      exact ⟨hmem, htop, fun ⟨link, hlink, heq⟩ => hfree link hlink heq⟩
    · rintro ⟨hmem, htop, hfree⟩
      exact ⟨⟨hmem, htop⟩, fun link hlink heq => hfree ⟨link, hlink, heq⟩⟩
  refine ⟨_, getFreeEmitterPorts_eq state ports links hp hl, hiff, ?_⟩
  intro entry hentry htop hfree
  exact (hiff entry).mpr ⟨hentry, htop, fun ⟨link, hlink, heq⟩ => hfree link hlink heq⟩

/-- Witness of C6 on a snapshot whose only link has the source port `P1` as its target:
`P1` stays a free emitter port. -/
theorem freeEmitterPorts_exact_witness :
    ∃ free, getFreeEmitterPorts backLinkState = .ok free ∧
      ("P1", ({ id := "P1", nodeId := "N1", topology := PORT_SOURCE } : Port)) ∈ free := by
  obtain ⟨free, hfree, _, hin⟩ := freeEmitterPorts_exact backLinkState
    [("P1", { id := "P1", nodeId := "N1", topology := PORT_SOURCE }),
     ("P2", { id := "P2", nodeId := "N1", topology := PORT_SINK })]
    [("L1", { sourceId := "P2", targetId := "P1" })] rfl rfl
  refine ⟨free, hfree, hin _ (by simp) rfl ?_⟩
  intro link hlink
  simp only [List.mem_singleton] at hlink
  rw [hlink]
  decide

/-- C7. In a snapshot holding `ports`, for every node id `getEmitterPortsForNode` is
the composition of the topology filter and the node filter: an entry is in its result
iff it is in `getEmitterPorts` and in `getPortsForNode` of that node id, and filtering
by node first and by topology second gives the same container; likewise for
`getSinkPortsForNode` and `getSinkPorts`. -/
theorem portsForNode_composition (state : State) (ports : IMap Port)
    (hp : getPorts state = some ports) :
    ∃ emitters sinks emittersOf sinksOf,
      getEmitterPorts state = .ok emitters ∧ getSinkPorts state = .ok sinks ∧
      getEmitterPortsForNode state = .ok emittersOf ∧
      getSinkPortsForNode state = .ok sinksOf ∧
      ∀ nodeId, ∃ ofNode, getPortsForNode state nodeId = .ok ofNode ∧
        (∀ entry, entry ∈ emittersOf nodeId ↔ entry ∈ emitters ∧ entry ∈ ofNode) ∧
        (∀ entry, entry ∈ sinksOf nodeId ↔ entry ∈ sinks ∧ entry ∈ ofNode) ∧
        emittersOf nodeId =
          IMap.filter (fun port => Port.getTopology port == PORT_SOURCE) ofNode ∧
        sinksOf nodeId =
          IMap.filter (fun port => Port.getTopology port == PORT_SINK) ofNode := by
  refine ⟨_, _, _, _, getEmitterPorts_eq state ports hp, getSinkPorts_eq state ports hp,
    getEmitterPortsForNode_eq state ports hp, getSinkPortsForNode_eq state ports hp, ?_⟩
  · intro nodeId
    refine ⟨_, getPortsForNode_eq state ports hp nodeId, ?_, ?_, ?_, ?_⟩
    · intro entry
      simp only [IMap.mem_filter]
      tauto
    · intro entry
      simp only [IMap.mem_filter]
      tauto
    · simp only [IMap.filter, List.filter_filter]
      apply List.filter_congr
      intro entry _
      exact Bool.and_comm _ _
    · simp only [IMap.filter, List.filter_filter]
      apply List.filter_congr
      intro entry _
      exact Bool.and_comm _ _

/-- Witness of C7 on scenario A. -/
theorem portsForNode_composition_witness :
    ∃ emitters sinks emittersOf sinksOf,
      getEmitterPorts scenarioA = .ok emitters ∧ getSinkPorts scenarioA = .ok sinks ∧
      getEmitterPortsForNode scenarioA = .ok emittersOf ∧
      getSinkPortsForNode scenarioA = .ok sinksOf ∧
      ∀ nodeId, ∃ ofNode, getPortsForNode scenarioA nodeId = .ok ofNode ∧
        (∀ entry, entry ∈ emittersOf nodeId ↔ entry ∈ emitters ∧ entry ∈ ofNode) ∧
        (∀ entry, entry ∈ sinksOf nodeId ↔ entry ∈ sinks ∧ entry ∈ ofNode) ∧
        emittersOf nodeId =
          IMap.filter (fun port => Port.getTopology port == PORT_SOURCE) ofNode ∧
        sinksOf nodeId =
          IMap.filter (fun port => Port.getTopology port == PORT_SINK) ofNode :=
  portsForNode_composition scenarioA
    [("P1", { id := "P1", nodeId := "N1", topology := PORT_SOURCE }),
     ("P2", { id := "P2", nodeId := "N1", topology := PORT_SINK })] rfl

/-- C8. In a snapshot holding `ports` and `links`, `getActionKeyedPorts` is the part of
`getFreeSinkPorts` whose ports carry a non-empty `accessKey`: an entry is in it iff it is
a free sink port and its `accessKey` is present and not the empty string. -/
theorem keyedFreeSinkPorts_exact (state : State) (ports : IMap Port) (links : IMap Link)
    (hp : getPorts state = some ports) (hl : getLinks state = some links) :
    ∃ free keyed, getFreeSinkPorts state = .ok free ∧ getActionKeyedPorts state = .ok keyed ∧
      (∀ entry, entry ∈ keyed ↔
        entry ∈ free ∧ ∃ key, entry.2.accessKey = some key ∧ key ≠ "") ∧
      (∀ entry ∈ keyed, entry.2.accessKey ≠ none ∧ entry.2.accessKey ≠ some "") := by
  have hkey : ∀ accessKey : Option String,
      truthyKey accessKey = true ↔ ∃ key, accessKey = some key ∧ key ≠ "" := by
    intro accessKey
    cases accessKey with
    | none => simp [truthyKey]
    | some key => simp [truthyKey]
  have hiff : ∀ (free : IMap Port) (entry : String × Port),
      entry ∈ IMap.filter (fun sinkPort => truthyKey sinkPort.accessKey) free ↔
        entry ∈ free ∧ ∃ key, entry.2.accessKey = some key ∧ key ≠ "" := by
    intro free entry
    rw [IMap.mem_filter, hkey]
  refine ⟨_, _, getFreeSinkPorts_eq state ports links hp hl,
    getActionKeyedPorts_eq state ports links hp hl, hiff _, ?_⟩
  · intro entry hentry
    obtain ⟨_, key, hsome, hne⟩ := (hiff _ entry).mp hentry
    rw [hsome]
    exact ⟨by simp, fun h => hne (Option.some.inj h)⟩

/-- Witness of C8 on a snapshot with three free sink ports: only the one whose
`accessKey` is `k1` is keyed; the ones with an empty key and with no key are left out. -/
theorem keyedFreeSinkPorts_exact_witness :
    getActionKeyedPorts keyedState =
        .ok [("P1", { id := "P1", nodeId := "N1", topology := PORT_SINK,
                      accessKey := some "k1" })] ∧
    ∃ free keyed, getFreeSinkPorts keyedState = .ok free ∧
      getActionKeyedPorts keyedState = .ok keyed ∧
      (∀ entry, entry ∈ keyed ↔
        entry ∈ free ∧ ∃ key, entry.2.accessKey = some key ∧ key ≠ "") ∧
      (∀ entry ∈ keyed, entry.2.accessKey ≠ none ∧ entry.2.accessKey ≠ some "") :=
  ⟨rfl, keyedFreeSinkPorts_exact keyedState
    [("P1", { id := "P1", nodeId := "N1", topology := PORT_SINK, accessKey := some "k1" }),
     ("P2", { id := "P2", nodeId := "N1", topology := PORT_SINK, accessKey := some "" }),
     ("P3", { id := "P3", nodeId := "N1", topology := PORT_SINK })] [] rfl rfl⟩

/-- C9. All queries are total: in a snapshot holding the collections `nodes`, `ports`
and `links`, empty or not, and for every node id, each of the nine queries returns a
container and never an error, and the container is empty when `ports` is empty and when
no port satisfies the predicate of the query. -/
theorem queries_total (state : State) (nodes : IMap Node) (ports : IMap Port)
    (links : IMap Link) (hn : getNodes state = some nodes) (hp : getPorts state = some ports)
    (hl : getLinks state = some links) (nodeId : String) :
    ReturnsContainer (getPortsForNode state nodeId) ports (fun port => port.nodeId = nodeId) ∧
    ReturnsContainer (getEmitterPorts state) ports (fun port => port.topology = PORT_SOURCE) ∧
    ReturnsContainer (getSinkPorts state) ports (fun port => port.topology = PORT_SINK) ∧
    (∃ emittersOf, getEmitterPortsForNode state = .ok emittersOf ∧
      ReturnsContainer (.ok (emittersOf nodeId)) ports
        (fun port => port.topology = PORT_SOURCE ∧ port.nodeId = nodeId)) ∧
    (∃ sinksOf, getSinkPortsForNode state = .ok sinksOf ∧
      ReturnsContainer (.ok (sinksOf nodeId)) ports
        (fun port => port.topology = PORT_SINK ∧ port.nodeId = nodeId)) ∧
    ReturnsContainer (getFreeSinkPorts state) ports
      (fun port => port.topology = PORT_SINK ∧ ∀ link ∈ links, link.2.targetId ≠ port.id) ∧
    ReturnsContainer (getFreeEmitterPorts state) ports
      (fun port => port.topology = PORT_SOURCE ∧ ∀ link ∈ links, link.2.sourceId ≠ port.id) ∧
    ReturnsContainer (getActionKeyedPorts state) ports
      (fun port => port.topology = PORT_SINK ∧ (∀ link ∈ links, link.2.targetId ≠ port.id) ∧
        ∃ key, port.accessKey = some key ∧ key ≠ "") ∧
    ReturnsContainer (getDetachedPorts state) ports
      (fun port => ∀ node ∈ nodes, node.2.id ≠ port.nodeId) := by
  refine ⟨?_, ?_, ?_, ⟨_, getEmitterPortsForNode_eq state ports hp, ?_⟩,
    ⟨_, getSinkPortsForNode_eq state ports hp, ?_⟩, ?_, ?_, ?_, ?_⟩
  · rw [getPortsForNode_eq state ports hp]
    apply returnsContainer_filter
    intro entry _ h
    simpa [Port.getNodeId] using h
  · rw [getEmitterPorts_eq state ports hp]
    apply returnsContainer_filter
    intro entry _ h
    simpa [Port.getTopology] using h
  · rw [getSinkPorts_eq state ports hp]
    apply returnsContainer_filter
    intro entry _ h
    simpa [Port.getTopology] using h
  · rw [IMap.filter_filter]
    apply returnsContainer_filter
    intro entry _ h
    simpa [Port.getTopology, Port.getNodeId] using h
  · rw [IMap.filter_filter]
    apply returnsContainer_filter
    intro entry _ h
    simpa [Port.getTopology, Port.getNodeId] using h
  · rw [getFreeSinkPorts_eq state ports links hp hl, IMap.filter_filter]
    apply returnsContainer_filter
    intro entry _ h
    simp only [Bool.and_eq_true, beq_iff_eq, notFound_find, beq_eq_false_iff_ne, ne_eq,
      Port.getTopology, Port.getId] at h
    exact ⟨h.1, fun link hlink => h.2 link hlink⟩
  · rw [getFreeEmitterPorts_eq state ports links hp hl, IMap.filter_filter]
    apply returnsContainer_filter
    intro entry _ h
    simp only [Bool.and_eq_true, beq_iff_eq, notFound_find, beq_eq_false_iff_ne, ne_eq,
      Port.getTopology, Port.getId] at h
    exact ⟨h.1, fun link hlink => h.2 link hlink⟩
  · rw [getActionKeyedPorts_eq state ports links hp hl, IMap.filter_filter,
      IMap.filter_filter]
    apply returnsContainer_filter
    intro entry _ h
    simp only [Bool.and_eq_true, beq_iff_eq, notFound_find, beq_eq_false_iff_ne, ne_eq,
      Port.getTopology, Port.getId] at h
    refine ⟨h.1, fun link hlink => h.2.1 link hlink, ?_⟩
    cases hkey : entry.2.accessKey with
    | none => rw [hkey] at h; simp [truthyKey] at h
    | some key =>
      rw [hkey] at h
      exact ⟨key, rfl, by simpa [truthyKey] using h.2.2⟩
  · rw [getDetachedPorts_eq state ports nodes hp hn]
    apply returnsContainer_filter
    intro entry _ h
    simp only [notFound_find, beq_eq_false_iff_ne, ne_eq, Port.getNodeId] at h
    exact fun node hnode => h node hnode

/-- Witness of C9 on scenario A and a node id that was never seen. -/
theorem queries_total_witness :
    ReturnsContainer (getPortsForNode scenarioA "nonexistent")
      [("P1", { id := "P1", nodeId := "N1", topology := PORT_SOURCE }),
       ("P2", { id := "P2", nodeId := "N1", topology := PORT_SINK })]
      (fun port => port.nodeId = "nonexistent") ∧
    ReturnsContainer (getDetachedPorts scenarioA)
      [("P1", { id := "P1", nodeId := "N1", topology := PORT_SOURCE }),
       ("P2", { id := "P2", nodeId := "N1", topology := PORT_SINK })]
      (fun port => ∀ node ∈ [("N1", ({ id := "N1" } : Node))], node.2.id ≠ port.nodeId) :=
  have h := queries_total scenarioA [("N1", { id := "N1" })]
    [("P1", { id := "P1", nodeId := "N1", topology := PORT_SOURCE }),
     ("P2", { id := "P2", nodeId := "N1", topology := PORT_SINK })] [] rfl rfl rfl "nonexistent"
  ⟨h.1, h.2.2.2.2.2.2.2.2⟩

/-- C10. Stale-free caching: on the two-level cache (outer level keyed by the identity
of the `ports` collection, inner level keyed by node id), for every heap of immutable
collections and every sequence of queries, each answer of the memoized `getPortsForNode`
is the result of the uncached filter on the `ports` collection of the snapshot queried.
After any such sequence, a query against a collection followed by a query against a
replacement that adds one port of the queried node returns the first answer extended by
that port; every entry of the inner table belongs to the collection last queried; and a
query with another `ports` identity ignores the table and leaves only its own entry. -/
theorem memoized_portsForNode_stale_free (heap : Heap) (queries : List (Snapshot × String)) :
    List.map Except.ok (runQueries heap .initial queries).1 =
        queries.map (fun query => getPortsForNode (query.1.state heap) query.2) ∧
    (∀ (before after : Snapshot) (nodeId key : String) (port : Port),
      heap after.portsRef = heap before.portsRef ++ [(key, port)] → port.nodeId = nodeId →
      ∃ first second,
        (runQueries heap (runQueries heap .initial queries).2
          [(before, nodeId), (after, nodeId)]).1 = [first, second] ∧
        getPortsForNode (before.state heap) nodeId = .ok first ∧
        getPortsForNode (after.state heap) nodeId = .ok second ∧
        second = first ++ [(key, port)]) ∧
    (∀ ref, (runQueries heap .initial queries).2.lastPorts = some ref →
      ∀ entry ∈ (runQueries heap .initial queries).2.memo,
        getPortsForNode { ports := some (heap ref) } entry.1 = .ok entry.2) ∧
    (∀ (snapshot : Snapshot) (nodeId : String),
      (runQueries heap .initial queries).2.lastPorts ≠ some snapshot.portsRef →
      ∃ result, getPortsForNode (snapshot.state heap) nodeId = .ok result ∧
        memoizedPortsForNode heap (runQueries heap .initial queries).2 snapshot.portsRef nodeId =
          (result, { lastPorts := some snapshot.portsRef, memo := [(nodeId, result)] })) := by
  obtain ⟨hanswers, hvalid⟩ :=
    runQueries_valid heap queries .initial (SelectorCache.initial_valid heap)
  refine ⟨?_, ?_, ?_, ?_⟩
  · rw [hanswers, List.map_map]
    rfl
  · intro before after nodeId key port hadd hnode
    obtain ⟨hpair, _⟩ := runQueries_valid heap [(before, nodeId), (after, nodeId)] _ hvalid
    refine ⟨_, _, hpair, rfl, rfl, ?_⟩
    simp only [portsOfNode, IMap.filter, hadd, List.filter_append, List.filter_cons,
      List.filter_nil, Port.getNodeId, hnode, beq_self_eq_true, if_true]
  · intro ref href entry hentry
    rw [hvalid ref href entry hentry]
    rfl
  · intro snapshot nodeId hother
    exact ⟨_, rfl, memoizedPortsForNode_rebuilt heap _ snapshot.portsRef nodeId hother⟩

/-- Witness of C10: after a first query, reference `1` replaces reference `0` with the
port `P2` added, and the second answer holds `P2`. -/
theorem memoized_portsForNode_stale_free_witness :
    ∃ first second,
      (runQueries sampleHeap
        (runQueries sampleHeap .initial [({ portsRef := 0 }, "N1")]).2
        [({ portsRef := 0 }, "N1"), ({ portsRef := 1 }, "N1")]).1 = [first, second] ∧
      getPortsForNode (Snapshot.state sampleHeap { portsRef := 0 }) "N1" = .ok first ∧
      getPortsForNode (Snapshot.state sampleHeap { portsRef := 1 }) "N1" = .ok second ∧
      second = first ++ [("P2", { id := "P2", nodeId := "N1", topology := PORT_SINK })] :=
  (memoized_portsForNode_stale_free sampleHeap [({ portsRef := 0 }, "N1")]).2.1
    { portsRef := 0 } { portsRef := 1 } "N1" "P2"
    { id := "P2", nodeId := "N1", topology := PORT_SINK } rfl rfl

/-! ## Repeated calls and the scenarios -/

/-- Two calls in a row of the memoized selector with the same `ports` identity and node
id: the second call finds the entry the first call left in the table. -/
theorem memoizedPortsForNode_twice (heap : Heap) (cache : SelectorCache) (portsRef : Ref)
    (nodeId : String) :
    List.lookup nodeId (memoizedPortsForNode heap cache portsRef nodeId).2.memo =
        some (memoizedPortsForNode heap cache portsRef nodeId).1 ∧
      (memoizedPortsForNode heap cache portsRef nodeId).2.lastPorts = some portsRef := by
  by_cases hsame : cache.lastPorts = some portsRef
  · cases hlookup : List.lookup nodeId cache.memo with
    | none => simp [memoizedPortsForNode, hsame, hlookup, List.lookup_cons]
    | some cached => simp [memoizedPortsForNode, hsame, hlookup]
  · rw [memoizedPortsForNode_rebuilt heap cache portsRef nodeId hsame]
    simp [List.lookup_cons]

/-- A call that finds the remembered `ports` identity and an entry for the node id
returns that entry and leaves the cache as it is, whatever the heap holds. -/
theorem memoizedPortsForNode_hit (heap : Heap) (cache : SelectorCache) (portsRef : Ref)
    (nodeId : String) (cached : IMap Port) (hsame : cache.lastPorts = some portsRef)
    (hlookup : List.lookup nodeId cache.memo = some cached) :
    memoizedPortsForNode heap cache portsRef nodeId = (cached, cache) := by
  obtain ⟨lastPorts, memo⟩ := cache
  simp only at hsame hlookup
  simp [memoizedPortsForNode, hsame, hlookup]

theorem IMap.filter_notFound_nil {α : Type} (pred : Port → α → Bool) (m : IMap Port) :
    IMap.filter (fun port => notFound (IMap.find (pred port) ([] : IMap α))) m = m := by
  simp [IMap.filter, IMap.find, notFound]

/-- C12. Scenario A, generalised: in a snapshot holding `ports` and an empty `links`
collection, `getFreeEmitterPorts` equals `getEmitterPorts` and `getFreeSinkPorts` equals
`getSinkPorts`; in scenario A itself the free emitter ports are `P1`, the free sink ports
are `P2` and no port is detached. -/
theorem no_links_all_free (state : State) (ports : IMap Port)
    (hp : getPorts state = some ports) (hl : getLinks state = some []) :
    getFreeEmitterPorts state = getEmitterPorts state ∧
    getFreeSinkPorts state = getSinkPorts state ∧
    getFreeEmitterPorts scenarioA =
      .ok [("P1", { id := "P1", nodeId := "N1", topology := PORT_SOURCE })] ∧
    getFreeSinkPorts scenarioA =
      .ok [("P2", { id := "P2", nodeId := "N1", topology := PORT_SINK })] ∧
    getDetachedPorts scenarioA = .ok [] := by
  refine ⟨?_, ?_, rfl, rfl, rfl⟩
  · rw [getFreeEmitterPorts_eq state ports [] hp hl, getEmitterPorts_eq state ports hp]
    exact congrArg Except.ok (IMap.filter_notFound_nil
      (fun (port : Port) (link : Link) => link.sourceId == Port.getId port) _)
  · rw [getFreeSinkPorts_eq state ports [] hp hl, getSinkPorts_eq state ports hp]
    exact congrArg Except.ok (IMap.filter_notFound_nil
      (fun (port : Port) (link : Link) => link.targetId == Port.getId port) _)

/-- Witness of C12 on scenario A. -/
theorem no_links_all_free_witness :
    getFreeEmitterPorts scenarioA = getEmitterPorts scenarioA ∧
    getFreeSinkPorts scenarioA = getSinkPorts scenarioA ∧
    getFreeEmitterPorts scenarioA =
      .ok [("P1", { id := "P1", nodeId := "N1", topology := PORT_SOURCE })] ∧
    getFreeSinkPorts scenarioA =
      .ok [("P2", { id := "P2", nodeId := "N1", topology := PORT_SINK })] ∧
    getDetachedPorts scenarioA = .ok [] :=
  no_links_all_free scenarioA
    [("P1", { id := "P1", nodeId := "N1", topology := PORT_SOURCE }),
     ("P2", { id := "P2", nodeId := "N1", topology := PORT_SINK })] rfl rfl

theorem notFound_find_add (pred : Link → Bool) (links after : IMap Link)
    (added : String × Link)
    (hadd : ∀ entry, entry ∈ after ↔ entry ∈ links ∨ entry = added) :
    notFound (IMap.find pred after) = (notFound (IMap.find pred links) && !pred added.2) := by
  rw [Bool.eq_iff_iff]
  simp only [Bool.and_eq_true, notFound_find, Bool.not_eq_true', hadd]
  constructor
  · intro h
    exact ⟨fun entry hentry => h entry (Or.inl hentry), h added (Or.inr rfl)⟩
  · rintro ⟨hold, hnew⟩ entry (hentry | hentry)
    · exact hold entry hentry
    · rw [hentry]; exact hnew

/-- C13. Scenario B, generalised: when a link from `source` to `target` is added to the
`links` collection of a snapshot, the free emitter ports become the former free emitter
ports whose id is not `source`, and the free sink ports the former free sink ports whose
id is not `target`; the free status of every other port is unchanged. In scenario B, which
is scenario A with the link from `P1` to `P2`, both results are empty. -/
theorem add_link_removes_endpoints (state after : State) (ports : IMap Port)
    (links extended : IMap Link) (key source target : String)
    (hp : getPorts state = some ports) (hl : getLinks state = some links)
    (hpa : getPorts after = some ports) (hla : getLinks after = some extended)
    (hadd : ∀ entry, entry ∈ extended ↔
      entry ∈ links ∨ entry = (key, { sourceId := source, targetId := target })) :
    (∃ freeEmitters freeSinks lessEmitters lessSinks,
      getFreeEmitterPorts state = .ok freeEmitters ∧ getFreeSinkPorts state = .ok freeSinks ∧
      getFreeEmitterPorts after = .ok lessEmitters ∧ getFreeSinkPorts after = .ok lessSinks ∧
      (∀ entry, entry ∈ lessEmitters ↔ entry ∈ freeEmitters ∧ entry.2.id ≠ source) ∧
      (∀ entry, entry ∈ lessSinks ↔ entry ∈ freeSinks ∧ entry.2.id ≠ target) ∧
      lessEmitters = IMap.filter (fun port => port.id != source) freeEmitters ∧
      lessSinks = IMap.filter (fun port => port.id != target) freeSinks) ∧
    getFreeEmitterPorts scenarioB = .ok [] ∧ getFreeSinkPorts scenarioB = .ok [] := by
  have hemitters :
      IMap.filter
        (fun emitterPort =>
          notFound (IMap.find (fun link => link.sourceId == Port.getId emitterPort) extended))
        (IMap.filter (fun port => Port.getTopology port == PORT_SOURCE) ports) =
      IMap.filter (fun port => port.id != source)
        (IMap.filter
          (fun emitterPort =>
            notFound (IMap.find (fun link => link.sourceId == Port.getId emitterPort) links))
          (IMap.filter (fun port => Port.getTopology port == PORT_SOURCE) ports)) := by
    simp only [IMap.filter, List.filter_filter]
    apply List.filter_congr
    intro entry _
    rw [notFound_find_add _ links extended _ hadd]
    by_cases h : entry.2.id = source
    · simp [h, Port.getId]
    · have h2 : ¬ source = entry.2.id := fun heq => h heq.symm
      have hb1 : (source == entry.2.id) = false := by simpa using h2
      have hb2 : (entry.2.id != source) = true := by simpa using h
      simp only [Port.getId, hb1, hb2, Bool.not_false, Bool.and_true, Bool.true_and]
  have hsinks :
      IMap.filter
        (fun sinkPort =>
          notFound (IMap.find (fun link => link.targetId == Port.getId sinkPort) extended))
        (IMap.filter (fun port => Port.getTopology port == PORT_SINK) ports) =
      IMap.filter (fun port => port.id != target)
        (IMap.filter
          (fun sinkPort =>
            notFound (IMap.find (fun link => link.targetId == Port.getId sinkPort) links))
          (IMap.filter (fun port => Port.getTopology port == PORT_SINK) ports)) := by
    simp only [IMap.filter, List.filter_filter]
    apply List.filter_congr
    intro entry _
    rw [notFound_find_add _ links extended _ hadd]
    by_cases h : entry.2.id = target
    · simp [h, Port.getId]
    · have h2 : ¬ target = entry.2.id := fun heq => h heq.symm
      have hb1 : (target == entry.2.id) = false := by simpa using h2
      have hb2 : (entry.2.id != target) = true := by simpa using h
      simp only [Port.getId, hb1, hb2, Bool.not_false, Bool.and_true, Bool.true_and]
  refine ⟨⟨_, _, _, _, getFreeEmitterPorts_eq state ports links hp hl,
    getFreeSinkPorts_eq state ports links hp hl,
    getFreeEmitterPorts_eq after ports extended hpa hla,
    getFreeSinkPorts_eq after ports extended hpa hla, ?_, ?_, hemitters, hsinks⟩, rfl, rfl⟩
  · intro entry
    rw [hemitters, IMap.mem_filter]
    simp
  · intro entry
    rw [hsinks, IMap.mem_filter]
    simp

/-- Witness of C13: scenario B is scenario A with the link from `P1` to `P2` added. -/
theorem add_link_removes_endpoints_witness :
    (∃ freeEmitters freeSinks lessEmitters lessSinks,
      getFreeEmitterPorts scenarioA = .ok freeEmitters ∧
      getFreeSinkPorts scenarioA = .ok freeSinks ∧
      getFreeEmitterPorts scenarioB = .ok lessEmitters ∧
      getFreeSinkPorts scenarioB = .ok lessSinks ∧
      (∀ entry, entry ∈ lessEmitters ↔ entry ∈ freeEmitters ∧ entry.2.id ≠ "P1") ∧
      (∀ entry, entry ∈ lessSinks ↔ entry ∈ freeSinks ∧ entry.2.id ≠ "P2") ∧
      lessEmitters = IMap.filter (fun port => port.id != "P1") freeEmitters ∧
      lessSinks = IMap.filter (fun port => port.id != "P2") freeSinks) ∧
    getFreeEmitterPorts scenarioB = .ok [] ∧ getFreeSinkPorts scenarioB = .ok [] :=
  add_link_removes_endpoints scenarioA scenarioB
    [("P1", { id := "P1", nodeId := "N1", topology := PORT_SOURCE }),
     ("P2", { id := "P2", nodeId := "N1", topology := PORT_SINK })]
    [] [("L1", { sourceId := "P1", targetId := "P2" })] "L1" "P1" "P2" rfl rfl rfl rfl
    (by intro entry; simp)

/-- C14. Scenario C, generalised: in a snapshot holding `nodes`, `ports` and `links`, a
port of topology SINK with a non-empty `accessKey`, whose id is no link's `targetId` and
whose `nodeId` is the id of no node, is both in `getDetachedPorts` and in
`getActionKeyedPorts`; in scenario C both results are the port `P3` alone. -/
theorem detached_and_keyed (state : State) (nodes : IMap Node) (ports : IMap Port)
    (links : IMap Link) (hn : getNodes state = some nodes) (hp : getPorts state = some ports)
    (hl : getLinks state = some links) (entry : String × Port) (key : String)
    (hmem : entry ∈ ports) (hsink : entry.2.topology = PORT_SINK)
    (hkey : entry.2.accessKey = some key) (hne : key ≠ "")
    (hfree : ∀ link ∈ links, link.2.targetId ≠ entry.2.id)
    (hmissing : ∀ node ∈ nodes, node.2.id ≠ entry.2.nodeId) :
    (∃ detached keyed, getDetachedPorts state = .ok detached ∧
      getActionKeyedPorts state = .ok keyed ∧ entry ∈ detached ∧ entry ∈ keyed) ∧
    getDetachedPorts scenarioC =
      .ok [("P3", { id := "P3", nodeId := "N99", topology := PORT_SINK,
                    accessKey := some "k1" })] ∧
    getActionKeyedPorts scenarioC =
      .ok [("P3", { id := "P3", nodeId := "N99", topology := PORT_SINK,
                    accessKey := some "k1" })] := by
  refine ⟨⟨_, _, getDetachedPorts_eq state ports nodes hp hn,
    getActionKeyedPorts_eq state ports links hp hl, ?_, ?_⟩, rfl, rfl⟩
  · rw [IMap.mem_filter, notFound_find]
    refine ⟨hmem, fun node hnode => ?_⟩
    simpa [Port.getNodeId] using hmissing node hnode
  · rw [IMap.mem_filter, IMap.mem_filter, IMap.mem_filter, notFound_find]
    refine ⟨⟨⟨hmem, by simpa [Port.getTopology] using hsink⟩, fun link hlink => ?_⟩, ?_⟩
    · simpa [Port.getId] using hfree link hlink
    · rw [hkey]
      simpa [truthyKey] using hne

/-- Witness of C14 on scenario C and its port `P3`. -/
theorem detached_and_keyed_witness :
    (∃ detached keyed, getDetachedPorts scenarioC = .ok detached ∧
      getActionKeyedPorts scenarioC = .ok keyed ∧
      ("P3", ({ id := "P3", nodeId := "N99", topology := PORT_SINK,
                accessKey := some "k1" } : Port)) ∈ detached ∧
      ("P3", ({ id := "P3", nodeId := "N99", topology := PORT_SINK,
                accessKey := some "k1" } : Port)) ∈ keyed) ∧
    getDetachedPorts scenarioC =
      .ok [("P3", { id := "P3", nodeId := "N99", topology := PORT_SINK,
                    accessKey := some "k1" })] ∧
    getActionKeyedPorts scenarioC =
      .ok [("P3", { id := "P3", nodeId := "N99", topology := PORT_SINK,
                    accessKey := some "k1" })] :=
  detached_and_keyed scenarioC [] _ [] rfl rfl rfl
    ("P3", { id := "P3", nodeId := "N99", topology := PORT_SINK, accessKey := some "k1" })
    "k1" (by simp) rfl rfl (by decide) (by simp) (by simp)

/-! ## Memoization per node id and the size of the table -/

/-- The counted call of `getPortsForNode` answers as the two-level cache does; it runs
the filter exactly when the table in use has no entry for the node id. -/
theorem portsForNodeCall_eq (heap : Heap) (cache : SelectorCache) (portsRef : Ref)
    (nodeId : String) :
    portsForNodeCall heap cache portsRef nodeId =
      ((memoizedPortsForNode heap cache portsRef nodeId).1,
       (memoizedPortsForNode heap cache portsRef nodeId).2,
       if (List.lookup nodeId
            (if cache.lastPorts = some portsRef then cache.memo else [])).isSome
       then 0 else 1) := by
  cases h : List.lookup nodeId (if cache.lastPorts = some portsRef then cache.memo else []) with
  | none => simp [portsForNodeCall, memoizeCall, memoizedPortsForNode, h]
  | some cached => simp [portsForNodeCall, memoizeCall, memoizedPortsForNode, h]

/-- C15, on the code: of the three node-keyed selectors only `getPortsForNode` wraps its
derived function in `memoize`. A repeated query of `getPortsForNode` for the same node
id and `ports` collection returns the entry the first query left in the table and runs
the filter zero times; a repeated query of `getEmitterPortsForNode` or of
`getSinkPortsForNode` runs the filter once more, and their cache is the same whichever
node id was queried, so it holds no entry per node id. -/
theorem nodeKeyed_repeated_query (heap : Heap) (cache : SelectorCache)
    (derived : DerivedCache) (portsRef : Ref) (nodeId : String) :
    (List.lookup nodeId (portsForNodeCall heap cache portsRef nodeId).2.1.memo =
        some (portsForNodeCall heap cache portsRef nodeId).1 ∧
      portsForNodeCall heap (portsForNodeCall heap cache portsRef nodeId).2.1 portsRef nodeId =
        ((portsForNodeCall heap cache portsRef nodeId).1,
         (portsForNodeCall heap cache portsRef nodeId).2.1, 0)) ∧
    (getEmitterPortsForNode { ports := some (heap portsRef) } =
        .ok (fun node => (emitterPortsForNodeCall heap derived portsRef node).1) ∧
      (emitterPortsForNodeCall heap
        (emitterPortsForNodeCall heap derived portsRef nodeId).2.1 portsRef nodeId).2.2 = 1 ∧
      ∀ other, (emitterPortsForNodeCall heap derived portsRef other).2.1 =
        (emitterPortsForNodeCall heap derived portsRef nodeId).2.1) ∧
    (getSinkPortsForNode { ports := some (heap portsRef) } =
        .ok (fun node => (sinkPortsForNodeCall heap derived portsRef node).1) ∧
      (sinkPortsForNodeCall heap
        (sinkPortsForNodeCall heap derived portsRef nodeId).2.1 portsRef nodeId).2.2 = 1 ∧
      ∀ other, (sinkPortsForNodeCall heap derived portsRef other).2.1 =
        (sinkPortsForNodeCall heap derived portsRef nodeId).2.1) := by
  obtain ⟨hstored, hlast⟩ := memoizedPortsForNode_twice heap cache portsRef nodeId
  have hsecond := memoizedPortsForNode_hit heap _ portsRef nodeId _ hlast hstored
  refine ⟨⟨?_, ?_⟩, ⟨rfl, rfl, fun _ => rfl⟩, ⟨rfl, rfl, fun _ => rfl⟩⟩
  · rw [portsForNodeCall_eq]
    exact hstored
  · rw [portsForNodeCall_eq heap cache, portsForNodeCall_eq, hsecond]
    simp only [hlast, if_true, hstored, Option.isSome_some]

/-- C11, on the code: a node-keyed query repeated on an unchanged snapshot returns an
equal result and leaves the cache as the first call left it, for all three selectors; but
only `getPortsForNode` returns the value the first call stored, read from its table
without running the filter. The repeated call of `getEmitterPortsForNode` and of
`getSinkPortsForNode` finds nothing stored for the node id and runs the filter once more.
With the collection of reference `1`, whose ports `P1` and `P2` belong to `N1`, the two
calls for `N1` evaluate as stated. -/
theorem repeated_query_stored_value (heap : Heap) (cache : SelectorCache)
    (derived : DerivedCache) (portsRef : Ref) (nodeId : String) :
    (∃ first stored runs,
      portsForNodeCall heap cache portsRef nodeId = (first, stored, runs) ∧
      List.lookup nodeId stored.memo = some first ∧
      portsForNodeCall heap stored portsRef nodeId = (first, stored, 0)) ∧
    (∃ first stored,
      emitterPortsForNodeCall heap derived portsRef nodeId = (first, stored, 1) ∧
      first = IMap.filter (fun port => Port.getNodeId port == nodeId)
        (IMap.filter (fun port => Port.getTopology port == PORT_SOURCE) (heap portsRef)) ∧
      stored = { lastPorts := some portsRef } ∧
      emitterPortsForNodeCall heap stored portsRef nodeId = (first, stored, 1)) ∧
    (∃ first stored,
      sinkPortsForNodeCall heap derived portsRef nodeId = (first, stored, 1) ∧
      first = IMap.filter (fun port => Port.getNodeId port == nodeId)
        (IMap.filter (fun port => Port.getTopology port == PORT_SINK) (heap portsRef)) ∧
      stored = { lastPorts := some portsRef } ∧
      sinkPortsForNodeCall heap stored portsRef nodeId = (first, stored, 1)) ∧
    portsForNodeCall sampleHeap .initial 1 "N1" =
      ([("P1", { id := "P1", nodeId := "N1", topology := PORT_SOURCE }),
        ("P2", { id := "P2", nodeId := "N1", topology := PORT_SINK })],
       { lastPorts := some 1,
         memo := [("N1", [("P1", { id := "P1", nodeId := "N1", topology := PORT_SOURCE }),
                          ("P2", { id := "P2", nodeId := "N1", topology := PORT_SINK })])] },
       1) ∧
    portsForNodeCall sampleHeap
        { lastPorts := some 1,
          memo := [("N1", [("P1", { id := "P1", nodeId := "N1", topology := PORT_SOURCE }),
                           ("P2", { id := "P2", nodeId := "N1", topology := PORT_SINK })])] }
        1 "N1" =
      ([("P1", { id := "P1", nodeId := "N1", topology := PORT_SOURCE }),
        ("P2", { id := "P2", nodeId := "N1", topology := PORT_SINK })],
       { lastPorts := some 1,
         memo := [("N1", [("P1", { id := "P1", nodeId := "N1", topology := PORT_SOURCE }),
                          ("P2", { id := "P2", nodeId := "N1", topology := PORT_SINK })])] },
       0) ∧
    emitterPortsForNodeCall sampleHeap { lastPorts := none } 1 "N1" =
      ([("P1", { id := "P1", nodeId := "N1", topology := PORT_SOURCE })],
       { lastPorts := some 1 }, 1) ∧
    emitterPortsForNodeCall sampleHeap { lastPorts := some 1 } 1 "N1" =
      ([("P1", { id := "P1", nodeId := "N1", topology := PORT_SOURCE })],
       { lastPorts := some 1 }, 1) ∧
    sinkPortsForNodeCall sampleHeap { lastPorts := none } 1 "N1" =
      ([("P2", { id := "P2", nodeId := "N1", topology := PORT_SINK })],
       { lastPorts := some 1 }, 1) ∧
    sinkPortsForNodeCall sampleHeap { lastPorts := some 1 } 1 "N1" =
      ([("P2", { id := "P2", nodeId := "N1", topology := PORT_SINK })],
       { lastPorts := some 1 }, 1) := by
  obtain ⟨hstored, hlast⟩ := memoizedPortsForNode_twice heap cache portsRef nodeId
  have hsecond := memoizedPortsForNode_hit heap _ portsRef nodeId _ hlast hstored
  refine ⟨⟨(memoizedPortsForNode heap cache portsRef nodeId).1,
      (memoizedPortsForNode heap cache portsRef nodeId).2, _,
      portsForNodeCall_eq heap cache portsRef nodeId, hstored, ?_⟩,
    ⟨_, _, rfl, rfl, rfl, rfl⟩, ⟨_, _, rfl, rfl, rfl, rfl⟩, rfl, rfl, rfl, rfl, rfl, rfl⟩
  rw [portsForNodeCall_eq, hsecond]
  simp only [hlast, if_true, hstored, Option.isSome_some]

theorem runQueries_snoc (heap : Heap) (queries : List (Snapshot × String))
    (query : Snapshot × String) (cache : SelectorCache) :
    (runQueries heap cache (queries ++ [query])).2 =
      (memoizedPortsForNode heap (runQueries heap cache queries).2
        query.1.portsRef query.2).2 := by
  induction queries generalizing cache with
  | nil => rfl
  | cons head rest ih =>
    simp only [List.cons_append, runQueries]
    exact ih _

theorem not_mem_keys_of_lookup {β : Type} (key : String) (table : List (String × β))
    (h : List.lookup key table = none) : key ∉ table.map Prod.fst := by
  induction table with
  | nil => simp
  | cons head rest ih =>
    obtain ⟨k, v⟩ := head
    by_cases hk : key = k
    · subst hk
      simp [List.lookup_cons] at h
    · have hbeq : (key == k) = false := by simpa using hk
      simp only [List.lookup_cons, hbeq] at h
      simp only [List.map_cons, List.mem_cons, not_or]
      exact ⟨hk, ih h⟩

theorem idsSinceCurrent_snoc (queries : List (Snapshot × String))
    (query : Snapshot × String) :
    idsSinceCurrent query.1.portsRef (queries ++ [query]) =
      query.2 :: idsSinceCurrent query.1.portsRef queries := by
  simp [idsSinceCurrent, List.takeWhile_cons]

theorem idsSinceCurrent_other (ref : Ref) (queries : List (Snapshot × String))
    (h : queries.getLast?.map (fun query => query.1.portsRef) ≠ some ref) :
    idsSinceCurrent ref queries = [] := by
  unfold idsSinceCurrent
  rw [List.getLast?_eq_head?_reverse] at h
  cases hrev : queries.reverse with
  | nil => rfl
  | cons last earlier =>
    rw [hrev] at h
    simp only [List.head?_cons, Option.map_some', ne_eq, Option.some.injEq] at h
    have hb : (last.1.portsRef == ref) = false := by simpa using h
    simp [List.takeWhile_cons, hb]

/-- After a run from the empty cache, the cache remembers the `ports` identity of the
last query, the keys of its table are distinct, and they are the node ids queried since
that collection became the current one. -/
theorem runQueries_table (heap : Heap) (queries : List (Snapshot × String)) :
    (runQueries heap .initial queries).2.lastPorts =
        queries.getLast?.map (fun query => query.1.portsRef) ∧
      ((runQueries heap .initial queries).2.memo.map Prod.fst).Nodup ∧
      ∀ ref, (runQueries heap .initial queries).2.lastPorts = some ref →
        ∀ key, key ∈ (runQueries heap .initial queries).2.memo.map Prod.fst ↔
          key ∈ idsSinceCurrent ref queries := by
  induction queries using List.reverseRecOn with
  | nil =>
    refine ⟨rfl, List.nodup_nil, ?_⟩
    intro ref href
    simp [runQueries, SelectorCache.initial] at href
  | append_singleton queries query ih =>
    obtain ⟨ihlast, ihnodup, ihkeys⟩ := ih
    have hlast := (memoizedPortsForNode_twice heap (runQueries heap .initial queries).2
      query.1.portsRef query.2).2
    rw [runQueries_snoc]
    refine ⟨by rw [hlast, List.getLast?_concat]; rfl, ?_, ?_⟩
    · by_cases hsame : (runQueries heap .initial queries).2.lastPorts = some query.1.portsRef
      · cases hlookup : List.lookup query.2 (runQueries heap .initial queries).2.memo with
        | none =>
          simp only [memoizedPortsForNode, hsame, if_true, hlookup, List.map_cons,
            List.nodup_cons]
          exact ⟨not_mem_keys_of_lookup _ _ hlookup, ihnodup⟩
        | some cached =>
          simp only [memoizedPortsForNode, hsame, if_true, hlookup]
          exact ihnodup
      · rw [memoizedPortsForNode_rebuilt heap _ _ _ hsame]
        simp
    · intro ref href key
      rw [hlast] at href
      simp only [Option.some.injEq] at href
      subst href
      rw [idsSinceCurrent_snoc]
      by_cases hsame : (runQueries heap .initial queries).2.lastPorts = some query.1.portsRef
      · have hkeys := ihkeys _ hsame
        cases hlookup : List.lookup query.2 (runQueries heap .initial queries).2.memo with
        | none =>
          simp only [memoizedPortsForNode, hsame, if_true, hlookup, List.map_cons,
            List.mem_cons, hkeys]
        | some cached =>
          simp only [memoizedPortsForNode, hsame, if_true, hlookup, List.mem_cons]
          have hin : query.2 ∈ (runQueries heap .initial queries).2.memo.map Prod.fst :=
            List.mem_map.mpr ⟨(query.2, cached), mem_of_lookup _ _ _ hlookup, rfl⟩
          constructor
          · intro h
            exact Or.inr ((hkeys key).mp h)
          · rintro (h | h)
            · rw [h]; exact hin
            · exact (hkeys key).mpr h
      · rw [memoizedPortsForNode_rebuilt heap _ _ _ hsame,
          idsSinceCurrent_other _ _ (by rw [← ihlast]; exact hsame)]
        simp

/-- C16, as stated, fails: against a snapshot with the single node `N1`, queries for
`N1` and for two node ids that do not exist leave three entries in the table. -/
theorem cache_exceeds_node_count_counterexample :
    oneNodeSnapshot.nodes.length = 1 ∧
    (runQueries sampleHeap .initial
      [(oneNodeSnapshot, "N1"), (oneNodeSnapshot, "N7"), (oneNodeSnapshot, "N8")]).2.memo.length
      = 3 ∧
    ¬ ((runQueries sampleHeap .initial
      [(oneNodeSnapshot, "N1"), (oneNodeSnapshot, "N7"), (oneNodeSnapshot, "N8")]).2.memo.length
      ≤ oneNodeSnapshot.nodes.length) := by
  have hsize : (runQueries sampleHeap .initial
      [(oneNodeSnapshot, "N1"), (oneNodeSnapshot, "N7"),
       (oneNodeSnapshot, "N8")]).2.memo.length = 3 := rfl
  have hnodes : oneNodeSnapshot.nodes.length = 1 := rfl
  refine ⟨hnodes, hsize, ?_⟩
  rw [hsize, hnodes]
  decide

/-- C16, amended. After every sequence of queries on the two-level cache, the cache
remembers the `ports` identity of the last query, and its table holds exactly one entry
for each distinct node id queried since that collection became the current one, whether
such a node exists or not: the keys are distinct, they are those node ids, and so the
number of entries is the number of distinct node ids of that final stretch of queries,
at most the number of its queries. Every entry is the filtered result of the current
collection, and a query with another `ports` identity leaves its own entry alone in the
table: nothing derived from an earlier collection is retained. -/
theorem cache_table_exact (heap : Heap) (queries : List (Snapshot × String)) :
    (runQueries heap .initial queries).2.lastPorts =
      queries.getLast?.map (fun query => query.1.portsRef) ∧
    (∀ ref, (runQueries heap .initial queries).2.lastPorts = some ref →
      ((runQueries heap .initial queries).2.memo.map Prod.fst).Nodup ∧
      (∀ key, key ∈ (runQueries heap .initial queries).2.memo.map Prod.fst ↔
        key ∈ idsSinceCurrent ref queries) ∧
      (runQueries heap .initial queries).2.memo.length =
        (idsSinceCurrent ref queries).dedup.length ∧
      (runQueries heap .initial queries).2.memo.length ≤
        (idsSinceCurrent ref queries).length ∧
      (∀ entry ∈ (runQueries heap .initial queries).2.memo,
        getPortsForNode { ports := some (heap ref) } entry.1 = .ok entry.2)) ∧
    (∀ (snapshot : Snapshot) (nodeId : String),
      (runQueries heap .initial queries).2.lastPorts ≠ some snapshot.portsRef →
      ∃ result, getPortsForNode (snapshot.state heap) nodeId = .ok result ∧
        (memoizedPortsForNode heap (runQueries heap .initial queries).2
          snapshot.portsRef nodeId).2.memo = [(nodeId, result)]) := by
  obtain ⟨hlast, hnodup, hkeys⟩ := runQueries_table heap queries
  refine ⟨hlast, ?_, ?_⟩
  · intro ref href
    obtain ⟨_, hvalid⟩ :=
      runQueries_valid heap queries .initial (SelectorCache.initial_valid heap)
    have hperm : List.Perm ((runQueries heap .initial queries).2.memo.map Prod.fst)
        (idsSinceCurrent ref queries).dedup :=
      (List.perm_ext_iff_of_nodup hnodup (List.nodup_dedup _)).mpr
        (fun key => by rw [hkeys ref href key, List.mem_dedup])
    have hlen : (runQueries heap .initial queries).2.memo.length =
        (idsSinceCurrent ref queries).dedup.length := by
      rw [← hperm.length_eq, List.length_map]
    refine ⟨hnodup, hkeys ref href, hlen, ?_, ?_⟩
    · rw [hlen]
      exact (List.dedup_sublist _).length_le
    · intro entry hentry
      rw [hvalid ref href entry hentry]
      rfl
  · intro snapshot nodeId hother
    refine ⟨_, rfl, ?_⟩
    rw [memoizedPortsForNode_rebuilt heap _ snapshot.portsRef nodeId hother]
    rfl

/-- Witness of amended C16. Three queries against one collection, two of them for node
ids that do not exist, leave three entries; and after queries for `N1` and `N2` against
reference `0`, for `N1` against reference `1` and for `N3` against reference `0` again,
the table holds the entry of `N3` alone. -/
theorem cache_table_exact_witness :
    (runQueries sampleHeap .initial
      [(oneNodeSnapshot, "N1"), (oneNodeSnapshot, "N7"), (oneNodeSnapshot, "N8")]).2.memo.length
      = (idsSinceCurrent 1
        [(oneNodeSnapshot, "N1"), (oneNodeSnapshot, "N7"), (oneNodeSnapshot, "N8")]).dedup.length ∧
    idsSinceCurrent 1
      [(oneNodeSnapshot, "N1"), (oneNodeSnapshot, "N7"), (oneNodeSnapshot, "N8")]
      = ["N8", "N7", "N1"] ∧
    (∀ key, key ∈ (runQueries sampleHeap .initial
        [(earlierSnapshot, "N1"), (earlierSnapshot, "N2"), (oneNodeSnapshot, "N1"),
         (earlierSnapshot, "N3")]).2.memo.map Prod.fst ↔
      key ∈ idsSinceCurrent 0
        [(earlierSnapshot, "N1"), (earlierSnapshot, "N2"), (oneNodeSnapshot, "N1"),
         (earlierSnapshot, "N3")]) ∧
    idsSinceCurrent 0
      [(earlierSnapshot, "N1"), (earlierSnapshot, "N2"), (oneNodeSnapshot, "N1"),
       (earlierSnapshot, "N3")] = ["N3"] :=
  ⟨((cache_table_exact sampleHeap
      [(oneNodeSnapshot, "N1"), (oneNodeSnapshot, "N7"), (oneNodeSnapshot, "N8")]).2.1 1
      rfl).2.2.1,
    rfl,
    ((cache_table_exact sampleHeap
      [(earlierSnapshot, "N1"), (earlierSnapshot, "N2"), (oneNodeSnapshot, "N1"),
       (earlierSnapshot, "N3")]).2.1 0 rfl).2.1,
    rfl⟩

/-! ## Topology values, sub-maps -/

/-- C17. In a snapshot holding `nodes`, `ports` and `links`, a port whose topology is
neither `PORT_SOURCE` nor `PORT_SINK` is in none of `getEmitterPorts`, `getSinkPorts`,
`getEmitterPortsForNode`, `getSinkPortsForNode` (for any node id), `getFreeEmitterPorts`,
`getFreeSinkPorts` and `getActionKeyedPorts`; it is in `getPortsForNode` of its own
`nodeId`, and it is in `getDetachedPorts` iff no node has that id. -/
theorem other_topology_port (state : State) (nodes : IMap Node) (ports : IMap Port)
    (links : IMap Link) (hn : getNodes state = some nodes) (hp : getPorts state = some ports)
    (hl : getLinks state = some links) (entry : String × Port) (hmem : entry ∈ ports)
    (hsource : entry.2.topology ≠ PORT_SOURCE) (hsink : entry.2.topology ≠ PORT_SINK) :
    ∃ emitters sinks emittersOf sinksOf freeEmitters freeSinks keyed ofNode detached,
      getEmitterPorts state = .ok emitters ∧ getSinkPorts state = .ok sinks ∧
      getEmitterPortsForNode state = .ok emittersOf ∧
      getSinkPortsForNode state = .ok sinksOf ∧
      getFreeEmitterPorts state = .ok freeEmitters ∧
      getFreeSinkPorts state = .ok freeSinks ∧
      getActionKeyedPorts state = .ok keyed ∧
      getPortsForNode state entry.2.nodeId = .ok ofNode ∧
      getDetachedPorts state = .ok detached ∧
      entry ∉ emitters ∧ entry ∉ sinks ∧
      (∀ nodeId, entry ∉ emittersOf nodeId) ∧ (∀ nodeId, entry ∉ sinksOf nodeId) ∧
      entry ∉ freeEmitters ∧ entry ∉ freeSinks ∧ entry ∉ keyed ∧
      entry ∈ ofNode ∧
      (entry ∈ detached ↔ ¬ ∃ node ∈ nodes, node.2.id = entry.2.nodeId) := by
  have hbsource : (Port.getTopology entry.2 == PORT_SOURCE) = false := by
    simpa [Port.getTopology] using hsource
  have hbsink : (Port.getTopology entry.2 == PORT_SINK) = false := by
    simpa [Port.getTopology] using hsink
  refine ⟨_, _, _, _, _, _, _, _, _, getEmitterPorts_eq state ports hp,
    getSinkPorts_eq state ports hp, getEmitterPortsForNode_eq state ports hp,
    getSinkPortsForNode_eq state ports hp, getFreeEmitterPorts_eq state ports links hp hl,
    getFreeSinkPorts_eq state ports links hp hl,
    getActionKeyedPorts_eq state ports links hp hl,
    getPortsForNode_eq state ports hp entry.2.nodeId,
    getDetachedPorts_eq state ports nodes hp hn, ?_, ?_, ?_, ?_, ?_, ?_, ?_, ?_, ?_⟩
  · simp [IMap.mem_filter, hbsource]
  · simp [IMap.mem_filter, hbsink]
  · intro nodeId
    simp [IMap.mem_filter, hbsource]
  · intro nodeId
    simp [IMap.mem_filter, hbsink]
  · simp [IMap.mem_filter, hbsource]
  · simp [IMap.mem_filter, hbsink]
  · simp [IMap.mem_filter, hbsink]
  · simp [IMap.mem_filter, hmem, Port.getNodeId]
  · simp only [IMap.mem_filter, hmem, true_and, notFound_find, beq_eq_false_iff_ne, ne_eq,
      Port.getNodeId]
    constructor
    · intro h ⟨node, hnode, heq⟩
      exact h node hnode heq
    · intro h node hnode heq
      exact h ⟨node, hnode, heq⟩

/-- Witness of C17 on a snapshot whose only port has the topology `BOTH`. -/
theorem other_topology_port_witness :
    getEmitterPorts otherTopologyState = .ok [] ∧ getSinkPorts otherTopologyState = .ok [] ∧
    getActionKeyedPorts otherTopologyState = .ok [] ∧
    ∃ emitters sinks emittersOf sinksOf freeEmitters freeSinks keyed ofNode detached,
      getEmitterPorts otherTopologyState = .ok emitters ∧
      getSinkPorts otherTopologyState = .ok sinks ∧
      getEmitterPortsForNode otherTopologyState = .ok emittersOf ∧
      getSinkPortsForNode otherTopologyState = .ok sinksOf ∧
      getFreeEmitterPorts otherTopologyState = .ok freeEmitters ∧
      getFreeSinkPorts otherTopologyState = .ok freeSinks ∧
      getActionKeyedPorts otherTopologyState = .ok keyed ∧
      getPortsForNode otherTopologyState "N1" = .ok ofNode ∧
      getDetachedPorts otherTopologyState = .ok detached ∧
      ("P9", ({ id := "P9", nodeId := "N1", topology := "BOTH",
                accessKey := some "k9" } : Port)) ∈ ofNode :=
  have h := other_topology_port otherTopologyState [("N1", { id := "N1" })]
    [("P9", { id := "P9", nodeId := "N1", topology := "BOTH", accessKey := some "k9" })] []
    rfl rfl rfl
    ("P9", { id := "P9", nodeId := "N1", topology := "BOTH", accessKey := some "k9" })
    (by simp) (by decide) (by decide)
  ⟨rfl, rfl, rfl, by
    obtain ⟨a, b, c, d, e, f, g, i, j, h1, h2, h3, h4, h5, h6, h7, h8, h9, _, _, _, _, _, _,
      _, hin, _⟩ := h
    exact ⟨a, b, c, d, e, f, g, i, j, h1, h2, h3, h4, h5, h6, h7, h8, h9, hin⟩⟩

theorem IMap.filter_sublist {α : Type} (pred : α → Bool) (m : IMap α) :
    List.Sublist (IMap.filter pred m) m :=
  List.filter_sublist m

/-- C18. In a snapshot holding `nodes`, `ports` and `links`, the result of every query
is a sub-map of `ports`: it is a sublist of the entries of `ports`, so each of its
entries is an entry of `ports` with the same key and the same port, and if every entry of
`ports` is keyed by the id of its port then so is every entry of the result. Moreover
`getActionKeyedPorts` is contained in `getFreeSinkPorts`, which is contained in
`getSinkPorts`, and `getFreeEmitterPorts` is contained in `getEmitterPorts`. -/
theorem results_are_submaps (state : State) (nodes : IMap Node) (ports : IMap Port)
    (links : IMap Link) (hn : getNodes state = some nodes) (hp : getPorts state = some ports)
    (hl : getLinks state = some links) (nodeId : String) :
    ∃ ofNode emitters sinks emittersOf sinksOf freeSinks freeEmitters keyed detached,
      getPortsForNode state nodeId = .ok ofNode ∧
      getEmitterPorts state = .ok emitters ∧ getSinkPorts state = .ok sinks ∧
      getEmitterPortsForNode state = .ok emittersOf ∧
      getSinkPortsForNode state = .ok sinksOf ∧
      getFreeSinkPorts state = .ok freeSinks ∧
      getFreeEmitterPorts state = .ok freeEmitters ∧
      getActionKeyedPorts state = .ok keyed ∧
      getDetachedPorts state = .ok detached ∧
      (∀ result ∈ [ofNode, emitters, sinks, emittersOf nodeId, sinksOf nodeId, freeSinks,
          freeEmitters, keyed, detached],
        List.Sublist result ports ∧ (∀ entry ∈ result, entry ∈ ports) ∧
        ((∀ entry ∈ ports, entry.1 = entry.2.id) → ∀ entry ∈ result, entry.1 = entry.2.id)) ∧
      List.Sublist keyed freeSinks ∧ List.Sublist freeSinks sinks ∧
      List.Sublist freeEmitters emitters ∧
      (∀ entry ∈ keyed, entry ∈ freeSinks) ∧ (∀ entry ∈ freeSinks, entry ∈ sinks) ∧
      (∀ entry ∈ freeEmitters, entry ∈ emitters) := by
  refine ⟨_, _, _, _, _, _, _, _, _, getPortsForNode_eq state ports hp nodeId,
    getEmitterPorts_eq state ports hp, getSinkPorts_eq state ports hp,
    getEmitterPortsForNode_eq state ports hp, getSinkPortsForNode_eq state ports hp,
    getFreeSinkPorts_eq state ports links hp hl,
    getFreeEmitterPorts_eq state ports links hp hl,
    getActionKeyedPorts_eq state ports links hp hl,
    getDetachedPorts_eq state ports nodes hp hn, ?_, IMap.filter_sublist _ _,
    IMap.filter_sublist _ _, IMap.filter_sublist _ _,
    fun entry h => (IMap.filter_sublist _ _).subset h,
    fun entry h => (IMap.filter_sublist _ _).subset h,
    fun entry h => (IMap.filter_sublist _ _).subset h⟩
  have hsub : ∀ result ∈ [IMap.filter (fun port => Port.getNodeId port == nodeId) ports,
      IMap.filter (fun port => Port.getTopology port == PORT_SOURCE) ports,
      IMap.filter (fun port => Port.getTopology port == PORT_SINK) ports,
      IMap.filter (fun port => Port.getNodeId port == nodeId)
        (IMap.filter (fun port => Port.getTopology port == PORT_SOURCE) ports),
      IMap.filter (fun port => Port.getNodeId port == nodeId)
        (IMap.filter (fun port => Port.getTopology port == PORT_SINK) ports),
      IMap.filter
        (fun sinkPort =>
          notFound (IMap.find (fun link => link.targetId == Port.getId sinkPort) links))
        (IMap.filter (fun port => Port.getTopology port == PORT_SINK) ports),
      IMap.filter
        (fun emitterPort =>
          notFound (IMap.find (fun link => link.sourceId == Port.getId emitterPort) links))
        (IMap.filter (fun port => Port.getTopology port == PORT_SOURCE) ports),
      IMap.filter (fun sinkPort => truthyKey sinkPort.accessKey)
        (IMap.filter
          (fun sinkPort =>
            notFound (IMap.find (fun link => link.targetId == Port.getId sinkPort) links))
          (IMap.filter (fun port => Port.getTopology port == PORT_SINK) ports)),
      IMap.filter
        (fun port => notFound (IMap.find (fun node => node.id == Port.getNodeId port) nodes))
        ports], List.Sublist result ports := by
    intro result hresult
    simp only [List.mem_cons, List.mem_singleton, List.not_mem_nil, or_false] at hresult
    rcases hresult with h | h | h | h | h | h | h | h | h <;> rw [h]
    · exact IMap.filter_sublist _ _
    · exact IMap.filter_sublist _ _
    · exact IMap.filter_sublist _ _
    · exact (IMap.filter_sublist _ _).trans (IMap.filter_sublist _ _)
    · exact (IMap.filter_sublist _ _).trans (IMap.filter_sublist _ _)
    · exact (IMap.filter_sublist _ _).trans (IMap.filter_sublist _ _)
    · exact (IMap.filter_sublist _ _).trans (IMap.filter_sublist _ _)
    · exact ((IMap.filter_sublist _ _).trans (IMap.filter_sublist _ _)).trans
        (IMap.filter_sublist _ _)
    · exact IMap.filter_sublist _ _
  intro result hresult
  have hs := hsub result hresult
  exact ⟨hs, fun entry h => hs.subset h, fun hkeyed entry h => hkeyed entry (hs.subset h)⟩

/-- Witness of C18 on scenario B and its node `N1`. -/
theorem results_are_submaps_witness :
    ∃ ofNode emitters sinks emittersOf sinksOf freeSinks freeEmitters keyed detached,
      getPortsForNode scenarioB "N1" = .ok ofNode ∧
      getEmitterPorts scenarioB = .ok emitters ∧ getSinkPorts scenarioB = .ok sinks ∧
      getEmitterPortsForNode scenarioB = .ok emittersOf ∧
      getSinkPortsForNode scenarioB = .ok sinksOf ∧
      getFreeSinkPorts scenarioB = .ok freeSinks ∧
      getFreeEmitterPorts scenarioB = .ok freeEmitters ∧
      getActionKeyedPorts scenarioB = .ok keyed ∧
      getDetachedPorts scenarioB = .ok detached ∧
      (∀ result ∈ [ofNode, emitters, sinks, emittersOf "N1", sinksOf "N1", freeSinks,
          freeEmitters, keyed, detached],
        List.Sublist result
          [("P1", ({ id := "P1", nodeId := "N1", topology := PORT_SOURCE } : Port)),
           ("P2", { id := "P2", nodeId := "N1", topology := PORT_SINK })] ∧
        (∀ entry ∈ result, entry ∈
          [("P1", ({ id := "P1", nodeId := "N1", topology := PORT_SOURCE } : Port)),
           ("P2", { id := "P2", nodeId := "N1", topology := PORT_SINK })]) ∧
        ((∀ entry ∈
            [("P1", ({ id := "P1", nodeId := "N1", topology := PORT_SOURCE } : Port)),
             ("P2", { id := "P2", nodeId := "N1", topology := PORT_SINK })],
            entry.1 = entry.2.id) → ∀ entry ∈ result, entry.1 = entry.2.id)) ∧
      List.Sublist keyed freeSinks ∧ List.Sublist freeSinks sinks ∧
      List.Sublist freeEmitters emitters ∧
      (∀ entry ∈ keyed, entry ∈ freeSinks) ∧ (∀ entry ∈ freeSinks, entry ∈ sinks) ∧
      (∀ entry ∈ freeEmitters, entry ∈ emitters) :=
  results_are_submaps scenarioB [("N1", { id := "N1" })]
    [("P1", { id := "P1", nodeId := "N1", topology := PORT_SOURCE }),
     ("P2", { id := "P2", nodeId := "N1", topology := PORT_SINK })]
    [("L1", { sourceId := "P1", targetId := "P2" })] rfl rfl rfl "N1"

/-! ## The accessors `outPort` and `inPort` -/

/-- C19. For every state and node id, `outPort` returns the value stored at the path
`out`, node id when there is one, and the empty map when nothing is stored there or the
state has no `out` collection; `inPort` does the same with the `in` collection. Neither
returns `undefined`, and `outPort` depends on the `out` collection only, `inPort` on the
`in` collection only. -/
theorem outPort_inPort (state : State) (nodeId : String) :
    (∀ entries stored, state.out = some entries → List.lookup nodeId entries = some stored →
      outPort state nodeId = some stored) ∧
    (∀ entries, state.out = some entries → List.lookup nodeId entries = none →
      outPort state nodeId = some []) ∧
    (state.out = none → outPort state nodeId = some []) ∧
    (∀ entries stored, state.«in» = some entries → List.lookup nodeId entries = some stored →
      inPort state nodeId = some stored) ∧
    (∀ entries, state.«in» = some entries → List.lookup nodeId entries = none →
      inPort state nodeId = some []) ∧
    (state.«in» = none → inPort state nodeId = some []) ∧
    outPort state nodeId ≠ none ∧ inPort state nodeId ≠ none ∧
    (∀ other : State, other.out = state.out → outPort other nodeId = outPort state nodeId) ∧
    (∀ other : State, other.«in» = state.«in» → inPort other nodeId = inPort state nodeId) := by
  refine ⟨?_, ?_, ?_, ?_, ?_, ?_, ?_, ?_, ?_, ?_⟩
  · intro entries stored hout hstored
    simp [outPort, getIn, orElse, hout, hstored]
  · intro entries hout hnone
    simp [outPort, getIn, orElse, hout, hnone]
  · intro hout
    simp [outPort, getIn, orElse, hout]
  · intro entries stored hin hstored
    simp [inPort, getIn, orElse, hin, hstored]
  · intro entries hin hnone
    simp [inPort, getIn, orElse, hin, hnone]
  · intro hin
    simp [inPort, getIn, orElse, hin]
  · unfold outPort orElse
    cases getIn state.out nodeId <;> simp
  · unfold inPort orElse
    cases getIn state.«in» nodeId <;> simp
  · intro other hsame
    simp only [outPort, hsame]
  · intro other hsame
    simp only [inPort, hsame]

/-- Witness of C19 on a state that stores the port `P1` under `out`, `N1` and has no
`in` collection. -/
theorem outPort_inPort_witness :
    outPort wiredState "N1" =
      some [("P1", { id := "P1", nodeId := "N1", topology := PORT_SOURCE })] ∧
    inPort wiredState "N1" = some [] :=
  have h := outPort_inPort wiredState "N1"
  ⟨h.1 [("N1", [("P1", { id := "P1", nodeId := "N1", topology := PORT_SOURCE })])]
      [("P1", { id := "P1", nodeId := "N1", topology := PORT_SOURCE })] rfl rfl,
   h.2.2.2.2.2.1 rfl⟩

end FlowDesigner
